import Mathlib

/-!
Shallow embedding of the map-reduce summarization core of
`n8n-nodes-nkb-map-reducer`:

* `TokenBudgetTracker` (src/nodes/map-reducer/utils/helper-functions.ts,
  class TokenBudgetTracker) — modelled as explicit state passing; JS
  `Date.now()` timestamps are `Nat` milliseconds, token counts are `Int`
  (JS numbers used as integers by the code).
* `withRetry` (helper-functions.ts) — the pRetry wrapper; modelled as a
  deterministic executor over an attempt-indexed outcome function, which
  records the number of invocations and the backoff delays slept.
* `hierarchicalReduce` (helper-functions.ts) — the recursive grouped
  reduction; the JS recursion is modelled with explicit fuel because the
  source function does not terminate for `groupSize = 1` on two or more
  items (the group count `ceil(n/1) = n` never decreases).
* `summarizeWithQueue` (src/nodes/map-reducer/MapReducer.node.summarize.ts)
  — the map phase loop and reduce phase.  The code awaits every
  `queue.add` before the next loop iteration, so the p-queue degenerates
  to direct sequential invocation; the embedding therefore threads state
  sequentially and never reads the queue concurrency configuration.
-/

/-! ## Token budget tracker (helper-functions.ts, class TokenBudgetTracker) -/

/-- State of a `TokenBudgetTracker`: `usedTokens` and `windowStart`
(`Date.now()` at construction or at the last reset). -/
structure TrackerState where
  usedTokens : Int
  windowStart : Nat
deriving Repr, DecidableEq

/-- Model of `resetIfNeeded`: zero the counter and restart the window once
`now - windowStart >= windowMs`. -/
def resetIfNeeded (windowMs : Nat) (now : Nat) (s : TrackerState) : TrackerState :=
  if windowMs ≤ now - s.windowStart then { usedTokens := 0, windowStart := now } else s

/-- Model of `canUseTokens(estimatedTokens)`: after the lazy reset, true iff
`usedTokens + estimatedTokens <= tokensPerMinute`.  Returns the answer
together with the (possibly reset) state. -/
def canUseTokens (windowMs : Nat) (tpm : Int) (now : Nat) (s : TrackerState) (est : Int) :
    Bool × TrackerState :=
  let s2 := resetIfNeeded windowMs now s
  (decide (s2.usedTokens + est ≤ tpm), s2)

/-- Model of `useTokens(actualTokens)`: after the lazy reset, add unconditionally
(no rejection, no clamping). -/
def useTokens (windowMs : Nat) (now : Nat) (s : TrackerState) (actual : Int) : TrackerState :=
  let s2 := resetIfNeeded windowMs now s
  { s2 with usedTokens := s2.usedTokens + actual }

/-- Model of `getRemainingTokens()`: after the lazy reset,
`Math.max(0, tokensPerMinute - usedTokens)`. -/
def getRemainingTokens (windowMs : Nat) (tpm : Int) (now : Nat) (s : TrackerState) :
    Int × TrackerState :=
  let s2 := resetIfNeeded windowMs now s
  (max 0 (tpm - s2.usedTokens), s2)

/-- Fold a sequence of `(now, actualTokens)` calls to `useTokens` over a
tracker state. -/
def applyUses (windowMs : Nat) (calls : List (Nat × Int)) (s : TrackerState) : TrackerState :=
  calls.foldl (fun st c => useTokens windowMs c.1 st c.2) s

/-! ## Retry policy (helper-functions.ts, withRetry / pRetry) -/

/-- A thrown JS error as `withRetry` observes it: an optional HTTP-like
`status` (`error.status ?? error.response.status`), an optional parsed
`retry-after` header in seconds, and `error.message`. -/
structure JsError where
  status : Option Int
  retryAfter : Option Nat
  message : String
deriving Repr, DecidableEq

deriving instance DecidableEq for Except

/-- Exponential backoff used for 429-without-header and for 5xx:
`Math.min(2 ** attemptNumber * 1000, 8000)` milliseconds. -/
def backoffDelay (attempt : Nat) : Nat := min (2 ^ attempt * 1000) 8000

/-- Delay chosen for a 429: `retryAfter * 1000` when the header parsed,
else the exponential backoff. -/
def delay429 (retryAfter : Option Nat) (attempt : Nat) : Nat :=
  match retryAfter with
  | some ra => ra * 1000
  | none => backoffDelay attempt

/-- Classification done by the `onFailedAttempt` handler: `some d` means
sleep `d` ms and retry (status 429 or >= 500); `none` means the handler
re-throws and the error propagates immediately. -/
def onFailedAttemptDelay (e : JsError) (attempt : Nat) : Option Nat :=
  match e.status with
  | some s =>
      if s = 429 then some (delay429 e.retryAfter attempt)
      else if 500 ≤ s then some (backoffDelay attempt)
      else none
  | none => none

/-- Observable outcome of a `withRetry` run: the final result, how many
times `fn` was invoked, and the list of backoff delays slept (in order). -/
structure RetryOutcome (α : Type) where
  result : Except JsError α
  calls : Nat
  delays : List Nat
deriving Repr

/-- One pRetry execution: run `fn attempt`; on failure consult the
handler; retry while retries remain and the failure is retryable.
`retriesLeft` is pRetry's `retries` counter, `attempt` the 1-based
`attemptNumber`. -/
def withRetryGo (fn : Nat → Except JsError α) (retriesLeft attempt : Nat) : RetryOutcome α :=
  match fn attempt with
  | Except.ok a => { result := Except.ok a, calls := 1, delays := [] }
  | Except.error e =>
    match onFailedAttemptDelay e attempt with
    | none => { result := Except.error e, calls := 1, delays := [] }
    | some d =>
      match retriesLeft with
      | 0 => { result := Except.error e, calls := 1, delays := [d] }
      | r + 1 =>
        let rest := withRetryGo fn r (attempt + 1)
        { result := rest.result, calls := rest.calls + 1, delays := d :: rest.delays }

/-- Default of the `maxRetries` parameter of `withRetry` in the source:
`maxRetries = 6`. -/
def withRetryDefaultRetries : Nat := 6

/-- Model of `withRetry(fn, maxRetries)`: pRetry with `retries := maxRetries`,
first attempt number 1. -/
def withRetry (fn : Nat → Except JsError α) (maxRetries : Nat) : RetryOutcome α :=
  withRetryGo fn maxRetries 1

/-! ## Hierarchical reduction (helper-functions.ts, hierarchicalReduce) -/

/-- The fixed separator `texts.join('\n\n---\n\n')`. -/
def sepJoin (xs : List String) : String := String.intercalate "\n\n---\n\n" xs

/-- The grouping loop
`for (let i = 0; i < texts.length; i += groupSize) groups.push(texts.slice(i, i + groupSize))`
written with explicit fuel; `fuel = xs.length` is enough for any
`groupSize >= 1` since every iteration consumes at least one element. -/
def mkGroupsAux (g : Nat) : Nat → List String → List (List String)
  | 0, _ => []
  | _, [] => []
  | fuel + 1, x :: xs => (x :: xs).take g :: mkGroupsAux g fuel ((x :: xs).drop g)

/-- Partition into contiguous groups of at most `g`, the last group
possibly smaller. -/
def mkGroups (g : Nat) (xs : List String) : List (List String) :=
  mkGroupsAux g xs.length xs

/-- Model of `hierarchicalReduce(texts, reduceJob, groupSize)` with explicit fuel
(one unit per recursion level).  `none` means the fuel ran out, which for
`groupSize >= 2` never happens with `fuel >= texts.length`; for
`groupSize = 1` on two or more items no finite fuel suffices — the level
count never shrinks, mirroring the infinite recursion of the source. -/
def hierarchicalReduce (f : String → String) (g : Nat) : Nat → List String → Option String
  | 0, _ => none
  | fuel + 1, texts =>
    if texts.length ≤ g then some (f (sepJoin texts))
    else hierarchicalReduce f g fuel ((mkGroups g texts).map (fun grp => f (sepJoin grp)))

/-- Instrumented variant of `hierarchicalReduce` that additionally
returns every argument handed to `reduceJob`, in invocation order
(groups of one round in group order, rounds in sequence). -/
def hierarchicalReduceT (f : String → String) (g : Nat) :
    Nat → List String → Option (String × List String)
  | 0, _ => none
  | fuel + 1, texts =>
    if texts.length ≤ g then some (f (sepJoin texts), [sepJoin texts])
    else
      let args := (mkGroups g texts).map sepJoin
      match hierarchicalReduceT f g fuel (args.map f) with
      | none => none
      | some (r, calls) => some (r, args ++ calls)

/-! ## String containment (JS `String.prototype.includes`) -/

/-- Character-list version of "starts with". -/
def lcStarts : List Char → List Char → Bool
  | [], _ => true
  | _ :: _, [] => false
  | c :: cs, d :: ds => c == d && lcStarts cs ds

/-- Character-list version of substring containment. -/
def lcHas (needle : List Char) : List Char → Bool
  | [] => needle.isEmpty
  | c :: rest => lcStarts needle (c :: rest) || lcHas needle rest

/-- JS `hay.includes(needle)`. -/
def strContains (hay needle : String) : Bool := lcHas needle.data hay.data

/-- Whitespace test of JS `String.prototype.trim` (the characters the
source texts can contain). -/
def isWsChar (c : Char) : Bool :=
  c == ' ' || c == '\t' || c == '\n' || c == '\r'

/-- JS `s.trim()`: strip leading and trailing whitespace. -/
def strTrim (s : String) : String :=
  String.mk (((s.data.dropWhile isWsChar).reverse.dropWhile isWsChar).reverse)

/-! ## Error messages of summarizeWithQueue (MapReducer.node.summarize.ts) -/

/-- The marker the per-segment catch handler looks for with
`error.message.includes('Token budget timeout')`. -/
def budgetTimeoutPhrase : String := "Token budget timeout"

/-- Message of the map-phase impossible-estimate error. -/
def mapEstimateMsg (est tpm : Int) : String :=
  "MAP operation token estimate (" ++ toString est ++ ") exceeds TPM limit ("
    ++ toString tpm ++ ")"

/-- Message of the budget-timeout error
(`Token budget timeout after X seconds: need E, have H`). -/
def budgetTimeoutMsg (timeoutMs : Nat) (need rem : Int) : String :=
  budgetTimeoutPhrase ++ (" after " ++ (toString (timeoutMs / 1000) ++ (" seconds: need "
    ++ (toString need ++ (", have " ++ toString rem)))))

/-- Message of the empty-model-response error of the map phase. -/
def emptyResponseMsg (chunk : Nat) : String :=
  "Empty response from model for document " ++ toString (chunk + 1)

/-- Message thrown when the map phase produced no partial result. -/
def noDocsProcessedMsg : String := "No documents were successfully processed in MAP phase"

/-- Wrapper applied by the map phase catch block (`new Error`, so the
original status is lost). -/
def mapPhaseFailedMsg (m : String) : String := "MAP phase failed: " ++ m

/-- Message of the reduce-phase impossible-estimate error. -/
def reduceEstimateMsg (est tpm : Int) : String :=
  "REDUCE operation token estimate (" ++ toString est ++ ") exceeds TPM limit ("
    ++ toString tpm ++ "). Consider reducing REDUCE_OUT_MAX or input size."

/-- Message of the empty-model-response error of the reduce phase. -/
def emptyReduceMsg : String := "Empty response from model during reduce operation"

/-- Message thrown when a reduce group is handed empty text. -/
def emptyJoinedMsg : String := "Empty text provided for reduce operation"

/-- Wrapper of the inner reduce-job catch block. -/
def reduceOpFailedMsg (m : String) : String := "Reduce operation failed: " ++ m

/-- Wrapper of the outer reduce-phase catch block. -/
def reducePhaseFailedMsg (m : String) : String := "REDUCE phase failed: " ++ m

/-- Message thrown when the final reduced text is empty. -/
def emptyFinalMsg : String := "Hierarchical reduce returned empty result"

/-! ## Orchestrator data (MapReducer.node.summarize.ts) -/

/-- The configuration fields of `SummarizeCfg` the scheduling core reads.
`QUEUE_CONCURRENCY`, `REQUESTS_PER_MINUTE` and `QUEUE_INTERVAL` configure
the p-queue; because the map loop awaits every `queue.add` before its
next iteration, the embedded semantics never consult them (`TEMPERATURE`
and the chunking fields are likewise irrelevant to these claims). -/
structure SummarizeCfg where
  TOKENS_PER_MINUTE : Int
  TOKEN_BUDGET_TIMEOUT : Nat
  REQUESTS_PER_MINUTE : Nat
  QUEUE_INTERVAL : Nat
  QUEUE_CONCURRENCY : Nat
  TOKEN_BUDGET_WINDOWS : Nat
  MAP_OUT_MAX : Int
  REDUCE_OUT_MAX : Int
  HIERARCHY_GROUP_SIZE : Nat
deriving Repr, DecidableEq

/-- A document handed to `summarizeWithQueue`: `pageContent` plus the
`chunk` index and `tokenCount` metadata produced by `docsFromPlainText`. -/
structure Doc where
  pageContent : String
  chunk : Nat
  tokenCount : Int
deriving Repr, DecidableEq

/-- Outcome of one `model.invoke` call: either a response with `content`
and the value `usedTokensFromMessage` extracts from it (`none` when the
usage metadata is absent/unusable), or a thrown error. -/
inductive InvokeOutcome where
  | ok (content : String) (usage : Option Int)
  | fail (e : JsError)
deriving Repr, DecidableEq

/-- Model of `usedTokensFromMessage(res) || estWeight`: JS `||` also replaces a
reported usage of 0 by the estimate. -/
def actualTokensUsed (usage : Option Int) (est : Int) : Int :=
  match usage with
  | some u => if u = 0 then est else u
  | none => est

/-- Result of the token-budget polling loop: admission, or the timeout
error's payload (`need`/`have` of its message) — in both cases with the
time and tracker state at exit. -/
inductive WaitResult where
  | admitted (t : Nat) (s : TrackerState)
  | timeout (need rem : Int) (t : Nat) (s : TrackerState)
deriving Repr, DecidableEq

/-- The polling loop
`while (!tracker.canUseTokens(est)) { if (Date.now() - startTime > timeoutMs) throw ...; await sleep(3000) }`.
Time is `t`; only the 3-second sleeps advance it. -/
def waitForBudget (windowMs : Nat) (tpm : Int) (timeoutMs : Nat) (est : Int) (startT : Nat)
    (t : Nat) (s : TrackerState) : WaitResult :=
  let c := canUseTokens windowMs tpm t s est
  if c.1 then WaitResult.admitted t c.2
  else if timeoutMs < t - startT then
    let r := getRemainingTokens windowMs tpm t c.2
    WaitResult.timeout est r.1 t r.2
  else
    waitForBudget windowMs tpm timeoutMs est startT (t + 3000) c.2
termination_by startT + timeoutMs + 3000 - t
decreasing_by
  simp_wf
  omega

/-- State threaded through the map loop: the clock, the shared
tracker, the accumulated partial summaries (`partials` in the source),
and the trace of model invocations as `(chunk, attemptNumber)` pairs. -/
structure MapState where
  time : Nat
  tracker : TrackerState
  parts : List String
  calls : List (Nat × Nat)
deriving Repr, DecidableEq

/-- The function handed to `withRetry` for one map segment: invoke the
model; an empty `content` is thrown as the empty-response error (no
status, hence never retried). -/
def mapCallFn (invoke : Nat → Nat → InvokeOutcome) (chunk : Nat) (attempt : Nat) :
    Except JsError (String × Option Int) :=
  match invoke chunk attempt with
  | InvokeOutcome.ok content usage =>
      if content = "" then
        Except.error { status := none, retryAfter := none, message := emptyResponseMsg chunk }
      else Except.ok (content, usage)
  | InvokeOutcome.fail e => Except.error e

/-- Body of the per-document `try` block of the map loop.  Returns the
updated state and `some e` when the body threw `e` (to be handled by the
per-document catch), `none` when it completed (including the
skip-on-missing-content and the discard-empty-result paths). -/
def mapSegmentBody (cfg : SummarizeCfg) (promptOf : String → String) (tokenCount : String → Int)
    (invoke : Nat → Nat → InvokeOutcome) (doc : Doc) (st : MapState) :
    MapState × Option JsError :=
  if doc.pageContent = "" then (st, none)
  else
    let prompt := promptOf doc.pageContent
    let estWeight := tokenCount prompt + cfg.MAP_OUT_MAX
    if cfg.TOKENS_PER_MINUTE < estWeight then
      (st, some { status := none, retryAfter := none,
                  message := mapEstimateMsg estWeight cfg.TOKENS_PER_MINUTE })
    else
      match waitForBudget cfg.TOKEN_BUDGET_WINDOWS cfg.TOKENS_PER_MINUTE
          cfg.TOKEN_BUDGET_TIMEOUT estWeight st.time st.time st.tracker with
      | WaitResult.timeout need rem t2 s2 =>
        ({ st with time := t2, tracker := s2 },
         some { status := none, retryAfter := none,
                message := budgetTimeoutMsg cfg.TOKEN_BUDGET_TIMEOUT need rem })
      | WaitResult.admitted t2 s2 =>
        let r := withRetry (mapCallFn invoke doc.chunk) withRetryDefaultRetries
        let t3 := t2 + r.delays.sum
        let calls2 := st.calls ++ (List.range r.calls).map (fun j => (doc.chunk, j + 1))
        match r.result with
        | Except.ok pr =>
          let s3 := useTokens cfg.TOKEN_BUDGET_WINDOWS t3 s2 (actualTokensUsed pr.2 estWeight)
          if strTrim pr.1 = "" then
            ({ time := t3, tracker := s3, parts := st.parts, calls := calls2 }, none)
          else
            ({ time := t3, tracker := s3, parts := st.parts ++ [strTrim pr.1], calls := calls2 },
             none)
        | Except.error e =>
          ({ time := t3, tracker := s2, parts := st.parts, calls := calls2 }, some e)

/-- The map loop with its per-document catch handler: an error whose
message includes `'Token budget timeout'` is re-thrown (aborting the
loop); any other error is logged and the loop continues. -/
def mapLoop (cfg : SummarizeCfg) (promptOf : String → String) (tokenCount : String → Int)
    (invoke : Nat → Nat → InvokeOutcome) : List Doc → MapState → MapState × Option JsError
  | [], st => (st, none)
  | d :: rest, st =>
    match mapSegmentBody cfg promptOf tokenCount invoke d st with
    | (st2, none) => mapLoop cfg promptOf tokenCount invoke rest st2
    | (st2, some e) =>
      if strContains e.message budgetTimeoutPhrase then (st2, some e)
      else mapLoop cfg promptOf tokenCount invoke rest st2

/-- Initial state: queue and tracker freshly created at time `t0`
(`usedTokens = 0`, `windowStart = Date.now()`). -/
def initialMapState (t0 : Nat) : MapState :=
  { time := t0, tracker := { usedTokens := 0, windowStart := t0 }, parts := [], calls := [] }

/-- The whole map phase: run the loop from a fresh state; a re-thrown
error, or an empty partial list, is wrapped by the outer catch as
`MAP phase failed: ...` (a `new Error`, so any status is dropped). -/
def mapPhaseRun (cfg : SummarizeCfg) (promptOf : String → String) (tokenCount : String → Int)
    (invoke : Nat → Nat → InvokeOutcome) (docs : List Doc) (t0 : Nat) :
    MapState × Option JsError :=
  match mapLoop cfg promptOf tokenCount invoke docs (initialMapState t0) with
  | (st, some e) =>
    (st, some { status := none, retryAfter := none, message := mapPhaseFailedMsg e.message })
  | (st, none) =>
    if st.parts = [] then
      (st, some { status := none, retryAfter := none,
                  message := mapPhaseFailedMsg noDocsProcessedMsg })
    else (st, none)

/-! ## Reduce phase (MapReducer.node.summarize.ts, reduceJob and the
hierarchical reduction call) -/

/-- State threaded through the reduce phase: clock, the tracker shared
with the map phase, and the ordinal of the next reduce model call (the
index used to consult the reduce invocation oracle). -/
structure RedState where
  time : Nat
  tracker : TrackerState
  jobIdx : Nat
deriving Repr, DecidableEq

/-- The function handed to `withRetry` for one reduce call. -/
def reduceCallFn (invokeR : Nat → Nat → InvokeOutcome) (jobIdx : Nat) (attempt : Nat) :
    Except JsError (String × Option Int) :=
  match invokeR jobIdx attempt with
  | InvokeOutcome.ok content usage =>
      if content = "" then
        Except.error { status := none, retryAfter := none, message := emptyReduceMsg }
      else Except.ok (content, usage)
  | InvokeOutcome.fail e => Except.error e

/-- One `reduceJob(joined)` call.  The empty-text and impossible-estimate
throws happen before the inner `try`, so they propagate unwrapped; the
budget wait and the queued retried call sit inside it, so their errors
are re-thrown as `Reduce operation failed: ...` (`new Error`, status
dropped). -/
def reduceJobE (cfg : SummarizeCfg) (combineOf : String → String) (tokenCount : String → Int)
    (invokeR : Nat → Nat → InvokeOutcome) (joined : String) (rs : RedState) :
    RedState × Except JsError String :=
  if strTrim joined = "" then
    (rs, Except.error { status := none, retryAfter := none, message := emptyJoinedMsg })
  else
    let prompt := combineOf joined
    let estWeight := tokenCount prompt + cfg.REDUCE_OUT_MAX
    if cfg.TOKENS_PER_MINUTE < estWeight then
      (rs, Except.error { status := none, retryAfter := none,
                          message := reduceEstimateMsg estWeight cfg.TOKENS_PER_MINUTE })
    else
      match waitForBudget cfg.TOKEN_BUDGET_WINDOWS cfg.TOKENS_PER_MINUTE
          cfg.TOKEN_BUDGET_TIMEOUT estWeight rs.time rs.time rs.tracker with
      | WaitResult.timeout need rem t2 s2 =>
        ({ time := t2, tracker := s2, jobIdx := rs.jobIdx },
         Except.error { status := none, retryAfter := none,
                        message := reduceOpFailedMsg
                          (budgetTimeoutMsg cfg.TOKEN_BUDGET_TIMEOUT need rem) })
      | WaitResult.admitted t2 s2 =>
        let r := withRetry (reduceCallFn invokeR rs.jobIdx) withRetryDefaultRetries
        let t3 := t2 + r.delays.sum
        match r.result with
        | Except.ok pr =>
          ({ time := t3,
             tracker := useTokens cfg.TOKEN_BUDGET_WINDOWS t3 s2 (actualTokensUsed pr.2 estWeight),
             jobIdx := rs.jobIdx + 1 },
           Except.ok (strTrim pr.1))
        | Except.error e =>
          ({ time := t3, tracker := s2, jobIdx := rs.jobIdx + 1 },
           Except.error { status := none, retryAfter := none,
                          message := reduceOpFailedMsg e.message })

/-- One round of the reduce phase over the computed groups.  The source
fires the group jobs through `Promise.all`; the embedding runs them in
group order (the order in which their outputs are re-assembled) and
stops at the first error, which is what `Promise.all` propagates. -/
def reduceGroupsSeq (job : String → RedState → RedState × Except JsError String) :
    List (List String) → RedState → RedState × Except JsError (List String)
  | [], rs => (rs, Except.ok [])
  | grp :: rest, rs =>
    match job (sepJoin grp) rs with
    | (rs2, Except.error e) => (rs2, Except.error e)
    | (rs2, Except.ok out) =>
      match reduceGroupsSeq job rest rs2 with
      | (rs3, Except.error e) => (rs3, Except.error e)
      | (rs3, Except.ok outs) => (rs3, Except.ok (out :: outs))

/-- Stateful `hierarchicalReduce` as invoked by the reduce phase, with
the same fuel discipline as the pure model (the fuel-out error is
unreachable whenever `fuel >= texts.length` and `groupSize >= 2`). -/
def hierarchicalReduceE (job : String → RedState → RedState × Except JsError String) (g : Nat) :
    Nat → List String → RedState → RedState × Except JsError String
  | 0, _, rs =>
    (rs, Except.error { status := none, retryAfter := none, message := "recursion fuel exhausted" })
  | fuel + 1, texts, rs =>
    if texts.length ≤ g then job (sepJoin texts) rs
    else
      match reduceGroupsSeq job (mkGroups g texts) rs with
      | (rs2, Except.error e) => (rs2, Except.error e)
      | (rs2, Except.ok level) => hierarchicalReduceE job g fuel level rs2

/-- The whole `summarizeWithQueue` run: the empty-input guard, the map
phase, then the reduce phase over the surviving partials (same tracker,
clock carried over), the outer reduce catch wrapping any error as
`REDUCE phase failed: ...`, and the final empty-result guard. -/
def summarizeWithQueue (cfg : SummarizeCfg) (promptOf combineOf : String → String)
    (tokenCount : String → Int) (invoke invokeR : Nat → Nat → InvokeOutcome)
    (docs : List Doc) (t0 : Nat) : Except JsError String :=
  if docs = [] then
    Except.error { status := none, retryAfter := none,
                   message := "No documents provided for summarization" }
  else
    match mapPhaseRun cfg promptOf tokenCount invoke docs t0 with
    | (_, some e) => Except.error e
    | (st, none) =>
      match hierarchicalReduceE (reduceJobE cfg combineOf tokenCount invokeR)
          cfg.HIERARCHY_GROUP_SIZE st.parts.length st.parts
          { time := st.time, tracker := st.tracker, jobIdx := 0 } with
      | (_, Except.error e) =>
        Except.error { status := none, retryAfter := none,
                       message := reducePhaseFailedMsg e.message }
      | (_, Except.ok final) =>
        if strTrim final = "" then
          Except.error { status := none, retryAfter := none,
                         message := reducePhaseFailedMsg emptyFinalMsg }
        else Except.ok (strTrim final)

/-- Whether an `Except` run result is a success. -/
def isOkE : Except JsError String → Bool
  | Except.ok _ => true
  | Except.error _ => false

/-! ## Per-segment pure characterizations (used to state ordering and
skip/continue properties of the map phase) -/

/-- The partial summary a document contributes, independent of tracker
state and time: `none` when the document is skipped (no content,
impossible estimate, failed call, or empty trimmed result), `some s`
when `s` is appended to the partials. -/
def segSuccessOutput (cfg : SummarizeCfg) (promptOf : String → String)
    (tokenCount : String → Int) (invoke : Nat → Nat → InvokeOutcome) (d : Doc) :
    Option String :=
  if d.pageContent = "" then none
  else if cfg.TOKENS_PER_MINUTE < tokenCount (promptOf d.pageContent) + cfg.MAP_OUT_MAX then none
  else
    match (withRetry (mapCallFn invoke d.chunk) withRetryDefaultRetries).result with
    | Except.ok pr => if strTrim pr.1 = "" then none else some (strTrim pr.1)
    | Except.error _ => none

/-- How many model invocations a document triggers (0 when it never
reaches the queue). -/
def segCallCount (cfg : SummarizeCfg) (promptOf : String → String)
    (tokenCount : String → Int) (invoke : Nat → Nat → InvokeOutcome) (d : Doc) : Nat :=
  if d.pageContent = "" then 0
  else if cfg.TOKENS_PER_MINUTE < tokenCount (promptOf d.pageContent) + cfg.MAP_OUT_MAX then 0
  else (withRetry (mapCallFn invoke d.chunk) withRetryDefaultRetries).calls

/-! ## Helper lemmas: substring containment -/

theorem lcStarts_append (xs ys : List Char) : lcStarts xs (xs ++ ys) = true := by
  induction xs with
  | nil => rfl
  | cons c cs ih => simp [lcStarts, ih]

theorem lcHas_append_self (n ys : List Char) (h : n ≠ []) : lcHas n (n ++ ys) = true := by
  cases n with
  | nil => exact absurd rfl h
  | cons c cs =>
    simp only [lcHas, List.cons_append, Bool.or_eq_true]
    left
    exact lcStarts_append (c :: cs) ys

theorem strContains_self_append (p r : String) (h : p.data ≠ []) :
    strContains (p ++ r) p = true := by
  have hd : (p ++ r).data = p.data ++ r.data := rfl
  simp [strContains, hd, lcHas_append_self _ _ h]

/-- Every budget-timeout message contains the marker the catch handler
looks for (it is its prefix). -/
theorem budgetTimeoutMsg_contains (timeoutMs : Nat) (need rem : Int) :
    strContains (budgetTimeoutMsg timeoutMs need rem) budgetTimeoutPhrase = true := by
  apply strContains_self_append
  decide

/-! ## Helper lemmas: the budget polling loop -/

theorem resetIfNeeded_idem (windowMs t : Nat) (s : TrackerState) :
    resetIfNeeded windowMs t (resetIfNeeded windowMs t s) = resetIfNeeded windowMs t s := by
  unfold resetIfNeeded
  by_cases h : windowMs ≤ t - s.windowStart
  · simp only [if_pos h]
    by_cases h2 : windowMs ≤ t - t
    · simp [if_pos h2]
    · simp [if_neg h2]
  · simp [if_neg h]

theorem waitForBudget_eq_admitted (windowMs : Nat) (tpm : Int) (timeoutMs : Nat) (est : Int)
    (startT t : Nat) (s : TrackerState)
    (hok : (resetIfNeeded windowMs t s).usedTokens + est ≤ tpm) :
    waitForBudget windowMs tpm timeoutMs est startT t s =
      WaitResult.admitted t (resetIfNeeded windowMs t s) := by
  unfold waitForBudget
  simp [canUseTokens, hok]

theorem waitForBudget_eq_timeout (windowMs : Nat) (tpm : Int) (timeoutMs : Nat) (est : Int)
    (startT t : Nat) (s : TrackerState)
    (hno : ¬ ((resetIfNeeded windowMs t s).usedTokens + est ≤ tpm))
    (helapsed : timeoutMs < t - startT) :
    waitForBudget windowMs tpm timeoutMs est startT t s =
      WaitResult.timeout est (max 0 (tpm - (resetIfNeeded windowMs t s).usedTokens)) t
        (resetIfNeeded windowMs t s) := by
  unfold waitForBudget
  simp [canUseTokens, getRemainingTokens, hno, helapsed, resetIfNeeded_idem]

theorem waitForBudget_eq_step (windowMs : Nat) (tpm : Int) (timeoutMs : Nat) (est : Int)
    (startT t : Nat) (s : TrackerState)
    (hno : ¬ ((resetIfNeeded windowMs t s).usedTokens + est ≤ tpm))
    (helapsed : ¬ (timeoutMs < t - startT)) :
    waitForBudget windowMs tpm timeoutMs est startT t s =
      waitForBudget windowMs tpm timeoutMs est startT (t + 3000) (resetIfNeeded windowMs t s) := by
  conv_lhs => unfold waitForBudget
  simp [canUseTokens, hno, helapsed]

/-! ## Helper lemmas: grouping and the pure hierarchical reduction -/

theorem mkGroupsAux_nil (g fuel : Nat) : mkGroupsAux g fuel [] = [] := by
  cases fuel <;> rfl

theorem mkGroupsAux_flatten (g : Nat) (hg : 1 ≤ g) :
    ∀ (fuel : Nat) (xs : List String), xs.length ≤ fuel →
      (mkGroupsAux g fuel xs).flatten = xs := by
  intro fuel
  induction fuel with
  | zero =>
    intro xs h
    have : xs = [] := List.eq_nil_of_length_eq_zero (Nat.le_zero.mp h)
    subst this
    rfl
  | succ n ih =>
    intro xs h
    cases xs with
    | nil => rfl
    | cons x rest =>
      simp only [List.length_cons] at h
      simp only [mkGroupsAux, List.flatten_cons]
      rw [ih ((x :: rest).drop g)
        (by simp only [List.length_drop, List.length_cons]; omega)]
      exact List.take_append_drop g (x :: rest)

theorem mkGroupsAux_length (g : Nat) (hg : 1 ≤ g) :
    ∀ (fuel : Nat) (xs : List String), xs.length ≤ fuel →
      (mkGroupsAux g fuel xs).length = (xs.length + g - 1) / g := by
  intro fuel
  induction fuel with
  | zero =>
    intro xs h
    have : xs = [] := List.eq_nil_of_length_eq_zero (Nat.le_zero.mp h)
    subst this
    simp [mkGroupsAux, Nat.div_eq_of_lt (by omega : g - 1 < g)]
  | succ n ih =>
    intro xs h
    cases xs with
    | nil => simp [mkGroupsAux, Nat.div_eq_of_lt (by omega : g - 1 < g)]
    | cons x rest =>
      simp only [List.length_cons] at h
      simp only [mkGroupsAux, List.length_cons]
      rw [ih ((x :: rest).drop g)
        (by simp only [List.length_drop, List.length_cons]; omega)]
      simp only [List.length_drop, List.length_cons]
      rcases Nat.lt_or_ge (rest.length + 1) (g + 1) with hle | hgt
      · have hz : rest.length + 1 - g = 0 := by omega
        rw [hz]
        rw [Nat.div_eq_of_lt (by omega : 0 + g - 1 < g)]
        have : (rest.length + 1 + g - 1) / g = 1 := by
          apply Nat.div_eq_of_lt_le <;> omega
        omega
      · have h1 : rest.length + 1 - g + g - 1 = rest.length + 1 - 1 := by omega
        have h2 : rest.length + 1 + g - 1 = (rest.length + 1 - 1) + g := by omega
        rw [h1, h2, Nat.add_div_right _ (by omega : 0 < g)]

theorem mkGroupsAux_mem_length_le (g : Nat) :
    ∀ (fuel : Nat) (xs : List String) (grp : List String),
      grp ∈ mkGroupsAux g fuel xs → grp.length ≤ g := by
  intro fuel
  induction fuel with
  | zero => intro xs grp h; simp [mkGroupsAux] at h
  | succ n ih =>
    intro xs grp h
    cases xs with
    | nil => simp [mkGroupsAux] at h
    | cons x rest =>
      simp only [mkGroupsAux, List.mem_cons] at h
      rcases h with h | h
      · subst h; simp [List.length_take]
      · exact ih _ _ h

theorem mkGroupsAux_mem_ne_nil (g : Nat) (hg : 1 ≤ g) :
    ∀ (fuel : Nat) (xs : List String) (grp : List String),
      grp ∈ mkGroupsAux g fuel xs → grp ≠ [] := by
  intro fuel
  induction fuel with
  | zero => intro xs grp h; simp [mkGroupsAux] at h
  | succ n ih =>
    intro xs grp h
    cases xs with
    | nil => simp [mkGroupsAux] at h
    | cons x rest =>
      simp only [mkGroupsAux, List.mem_cons] at h
      rcases h with h | h
      · subst h
        apply List.ne_nil_of_length_pos
        simp only [List.length_take, List.length_cons]
        omega
      · exact ih _ _ h

theorem mkGroupsAux_dropLast_length (g : Nat) (hg : 1 ≤ g) :
    ∀ (fuel : Nat) (xs : List String) (grp : List String),
      xs.length ≤ fuel → grp ∈ (mkGroupsAux g fuel xs).dropLast → grp.length = g := by
  intro fuel
  induction fuel with
  | zero =>
    intro xs grp h hm
    have : xs = [] := List.eq_nil_of_length_eq_zero (Nat.le_zero.mp h)
    subst this
    simp [mkGroupsAux] at hm
  | succ n ih =>
    intro xs grp h hm
    cases xs with
    | nil => simp [mkGroupsAux] at hm
    | cons x rest =>
      simp only [List.length_cons] at h
      simp only [mkGroupsAux] at hm
      by_cases hdrop : (x :: rest).drop g = []
      · rw [hdrop, mkGroupsAux_nil] at hm
        simp at hm
      · have hlen : g < rest.length + 1 := by
          by_contra hcon
          refine hdrop (List.drop_eq_nil_of_le ?_)
          simp only [List.length_cons]
          omega
        have hne : mkGroupsAux g n ((x :: rest).drop g) ≠ [] := by
          cases hdn : (x :: rest).drop g with
          | nil => exact absurd hdn hdrop
          | cons y ys =>
            have hlen2 := congrArg List.length hdn
            simp only [List.length_drop, List.length_cons] at hlen2
            obtain ⟨m, rfl⟩ : ∃ m, n = m + 1 := ⟨n - 1, by omega⟩
            simp [mkGroupsAux]
        rw [List.dropLast_cons_of_ne_nil hne] at hm
        rcases List.mem_cons.mp hm with hh | hh
        · subst hh
          simp only [List.length_take, List.length_cons]
          omega
        · refine ih _ _ ?_ hh
          simp only [List.length_drop, List.length_cons]
          omega

/-- For any group size `g >= 1` the round count `ceil(n/g)` with `g < n`
is at most `n`, and for `g >= 2` it is strictly below `n`. -/
theorem mkGroups_length_lt (g : Nat) (hg : 2 ≤ g) (xs : List String)
    (hlt : g < xs.length) : (mkGroups g xs).length < xs.length := by
  rw [mkGroups, mkGroupsAux_length g (by omega) xs.length xs (Nat.le_refl _)]
  have hmul : xs.length + g - 1 < g * xs.length := by
    have h2 : 2 * xs.length ≤ g * xs.length := Nat.mul_le_mul_right _ hg
    omega
  exact Nat.div_lt_of_lt_mul hmul

/-- With `g >= 2` and enough fuel the fueled recursion always reaches
the base case. -/
theorem hierarchicalReduce_isSome (f : String → String) (g : Nat) (hg : 2 ≤ g) :
    ∀ (fuel : Nat) (texts : List String), texts ≠ [] → texts.length ≤ fuel →
      (hierarchicalReduce f g fuel texts).isSome := by
  intro fuel
  induction fuel with
  | zero =>
    intro texts hne h
    exact absurd (List.eq_nil_of_length_eq_zero (Nat.le_zero.mp h)) hne
  | succ n ih =>
    intro texts hne h
    by_cases hbase : texts.length ≤ g
    · simp [hierarchicalReduce, hbase]
    · have hlt : g < texts.length := by omega
      have hlevel := mkGroups_length_lt g hg texts hlt
      simp only [hierarchicalReduce, if_neg hbase]
      apply ih
      · have hpos : 0 < (mkGroups g texts).length := by
          rw [mkGroups, mkGroupsAux_length g (by omega) texts.length texts (Nat.le_refl _)]
          have h1 : 1 * g ≤ texts.length + g - 1 := by omega
          have := (Nat.le_div_iff_mul_le (by omega : 0 < g)).mpr h1
          omega
        intro hcon
        have hc := congrArg List.length hcon
        simp only [List.length_map, List.length_nil] at hc
        omega
      · simp only [List.length_map]
        omega

/-- With `groupSize = 1` on two items the level never shrinks: the
recursion never returns, whatever the fuel. -/
theorem hierarchicalReduce_groupOne_diverges :
    ∀ fuel : Nat, hierarchicalReduce (fun s => s) 1 fuel ["a", "b"] = none := by
  intro fuel
  induction fuel with
  | zero => rfl
  | succ n ih =>
    have harg : (mkGroups 1 ["a", "b"]).map (fun grp => (fun s => s) (sepJoin grp))
        = ["a", "b"] := by decide
    simp only [hierarchicalReduce]
    rw [if_neg (by decide)]
    rw [harg]
    exact ih

/-- C1 counterexample: with `groupSize = 1` and two items, partitioning
does not decrease the item count (`ceil(2/1) = 2`), and
`hierarchicalReduce` produces no result no matter how many recursion
levels it is allowed — the source recursion never terminates, so
`groupSize = 1` is not an input on which the function produces a
result. -/
theorem C1_counterexample :
    ¬ ((mkGroups 1 ["a", "b"]).length < (["a", "b"] : List String).length) ∧
    hierarchicalReduce (fun s => s) 1 1000 ["a", "b"] = none :=
  ⟨by decide, hierarchicalReduce_groupOne_diverges 1000⟩

/-- C1 (amended): for every non-empty list of texts and every
`groupSize >= 2`, `hierarchicalReduce` terminates — whenever
`texts.length > groupSize` the partition has `ceil(n/groupSize) < n`
groups, so with fuel `>= texts.length` the recursion reaches the base
case and returns a result.  (For `groupSize = 1` the count does not
decrease and the recursion diverges, see the counterexample.) -/
theorem C1_hierarchicalReduce_terminates (f : String → String) (g : Nat) (texts : List String)
    (fuel : Nat) (hg : 2 ≤ g) (hne : texts ≠ []) (hfuel : texts.length ≤ fuel) :
    (hierarchicalReduce f g fuel texts).isSome ∧
    (g < texts.length → (mkGroups g texts).length < texts.length) :=
  ⟨hierarchicalReduce_isSome f g hg fuel texts hne hfuel,
   fun hlt => mkGroups_length_lt g hg texts hlt⟩

theorem C1_hierarchicalReduce_terminates_witness :
    (hierarchicalReduce (fun s => s) 2 5 ["a", "b", "c", "d", "e"]).isSome ∧
    (2 < (["a", "b", "c", "d", "e"] : List String).length →
      (mkGroups 2 ["a", "b", "c", "d", "e"]).length
        < (["a", "b", "c", "d", "e"] : List String).length) :=
  C1_hierarchicalReduce_terminates (fun s => s) 2 ["a", "b", "c", "d", "e"] 5
    (by decide) (by decide) (by decide)

/-! ## C2: the 5-segment, groupSize-2 scenario -/

/-- A concrete combine function used for the 5-segment scenario. -/
def combineTag (s : String) : String := "<" ++ s ++ ">"

/-- The five partial summaries of scenario A. -/
def fiveSegs : List String := ["s1", "s2", "s3", "s4", "s5"]

/-- The outputs of round 1 (groups `[2,2,1]`), in group order. -/
def round1Outs : List String := ((mkGroups 2 fiveSegs).map sepJoin).map combineTag

/-- The outputs of round 2 (groups `[2,1]`), in group order. -/
def round2Outs : List String := ((mkGroups 2 round1Outs).map sepJoin).map combineTag

/-- C2 counterexample: on 5 items with `groupSize = 2` the combine
function is invoked 6 times in total (3 + 2 + 1 across the three
rounds), not 3. -/
theorem C2_counterexample :
    (hierarchicalReduceT combineTag 2 5 fiveSegs).map (fun pr => pr.2.length) = some 6 ∧
    ¬ ((hierarchicalReduceT combineTag 2 5 fiveSegs).map (fun pr => pr.2.length) = some 3) := by
  constructor
  · decide
  · decide

/-- C2 (amended): for 5 items and `groupSize = 2`, the rounds have group
shapes `[2,2,1]`, then `[2,1]`, then one final group of the 2 remaining
items; `combine` is invoked 6 times in total, and the run returns the
output of the final combine call on the two last remaining items. -/
theorem C2_five_segments_six_calls :
    (hierarchicalReduceT combineTag 2 5 fiveSegs).map (fun pr => pr.2.length) = some 6 ∧
    (mkGroups 2 fiveSegs).map List.length = [2, 2, 1] ∧
    (mkGroups 2 round1Outs).map List.length = [2, 1] ∧
    round2Outs.length = 2 ∧
    hierarchicalReduce combineTag 2 5 fiveSegs = some (combineTag (sepJoin round2Outs)) := by
  refine ⟨by decide, by decide, by decide, by decide, by decide⟩

/-! ## C7: round structure of the hierarchical reduction -/

/-- C7: on a non-empty list of length `N` with group size `G >= 1`: if
`N <= G`, `combine` is invoked exactly once, on all `N` items joined
with the fixed separator; if `N > G`, round 1 invokes `combine` once per
group on `ceil(N/G)` contiguous left-to-right groups of at most `G`
items (all but possibly the last of exactly `G`), whose concatenation is
the input list, and the recursion continues on the per-group outputs
collected in group order. -/
theorem C7_round_structure (f : String → String) (g : Nat) (texts : List String) (fuel : Nat)
    (hg : 1 ≤ g) (hne : texts ≠ []) :
    (texts.length ≤ g →
      hierarchicalReduceT f g (fuel + 1) texts = some (f (sepJoin texts), [sepJoin texts])) ∧
    (g < texts.length →
      (mkGroups g texts).length = (texts.length + g - 1) / g ∧
      (mkGroups g texts).flatten = texts ∧
      (∀ grp ∈ mkGroups g texts, grp ≠ [] ∧ grp.length ≤ g) ∧
      (∀ grp ∈ (mkGroups g texts).dropLast, grp.length = g) ∧
      hierarchicalReduceT f g (fuel + 1) texts =
        (match hierarchicalReduceT f g fuel (((mkGroups g texts).map sepJoin).map f) with
         | none => none
         | some pr => some (pr.1, (mkGroups g texts).map sepJoin ++ pr.2))) := by
  constructor
  · intro hbase
    simp [hierarchicalReduceT, hbase]
  · intro hlt
    refine ⟨?_, ?_, ?_, ?_, ?_⟩
    · exact mkGroupsAux_length g hg texts.length texts (Nat.le_refl _)
    · exact mkGroupsAux_flatten g hg texts.length texts (Nat.le_refl _)
    · exact fun grp hm =>
        ⟨mkGroupsAux_mem_ne_nil g hg texts.length texts grp hm,
         mkGroupsAux_mem_length_le g texts.length texts grp hm⟩
    · exact fun grp hm => mkGroupsAux_dropLast_length g hg texts.length texts grp
        (Nat.le_refl _) hm
    · simp only [hierarchicalReduceT, if_neg (by omega : ¬ texts.length ≤ g)]
      rcases hrec : hierarchicalReduceT f g fuel (((mkGroups g texts).map sepJoin).map f) with
        _ | pr
      · rfl
      · rfl

theorem C7_round_structure_witness :
    ((["a", "b", "c", "d"] : List String).length ≤ 3 →
      hierarchicalReduceT combineTag 3 (3 + 1) ["a", "b", "c", "d"]
        = some (combineTag (sepJoin ["a", "b", "c", "d"]), [sepJoin ["a", "b", "c", "d"]])) ∧
    (3 < (["a", "b", "c", "d"] : List String).length →
      (mkGroups 3 ["a", "b", "c", "d"]).length
        = ((["a", "b", "c", "d"] : List String).length + 3 - 1) / 3 ∧
      (mkGroups 3 ["a", "b", "c", "d"]).flatten = ["a", "b", "c", "d"] ∧
      (∀ grp ∈ mkGroups 3 ["a", "b", "c", "d"], grp ≠ [] ∧ grp.length ≤ 3) ∧
      (∀ grp ∈ (mkGroups 3 ["a", "b", "c", "d"]).dropLast, grp.length = 3) ∧
      hierarchicalReduceT combineTag 3 (3 + 1) ["a", "b", "c", "d"] =
        (match hierarchicalReduceT combineTag 3 3
            (((mkGroups 3 ["a", "b", "c", "d"]).map sepJoin).map combineTag) with
         | none => none
         | some pr => some (pr.1, (mkGroups 3 ["a", "b", "c", "d"]).map sepJoin ++ pr.2))) :=
  C7_round_structure combineTag 3 ["a", "b", "c", "d"] 3 (by decide) (by decide)

/-! ## Helper lemmas: the retry policy -/

theorem withRetryGo_ok (fn : Nat → Except JsError α) (r att : Nat) (a : α)
    (h : fn att = Except.ok a) :
    withRetryGo fn r att = { result := Except.ok a, calls := 1, delays := [] } := by
  conv_lhs => unfold withRetryGo
  simp only [h]

theorem withRetryGo_noRetry (fn : Nat → Except JsError α) (r att : Nat) (e : JsError)
    (h : fn att = Except.error e) (hd : onFailedAttemptDelay e att = none) :
    withRetryGo fn r att = { result := Except.error e, calls := 1, delays := [] } := by
  conv_lhs => unfold withRetryGo
  simp only [h, hd]

theorem withRetryGo_exhausted (fn : Nat → Except JsError α) (att : Nat) (e : JsError) (d : Nat)
    (h : fn att = Except.error e) (hd : onFailedAttemptDelay e att = some d) :
    withRetryGo fn 0 att = { result := Except.error e, calls := 1, delays := [d] } := by
  conv_lhs => unfold withRetryGo
  simp only [h, hd]

theorem withRetryGo_retryStep (fn : Nat → Except JsError α) (r att : Nat) (e : JsError) (d : Nat)
    (h : fn att = Except.error e) (hd : onFailedAttemptDelay e att = some d) :
    withRetryGo fn (r + 1) att =
      { result := (withRetryGo fn r (att + 1)).result,
        calls := (withRetryGo fn r (att + 1)).calls + 1,
        delays := d :: (withRetryGo fn r (att + 1)).delays } := by
  conv_lhs => unfold withRetryGo
  simp only [h, hd]

theorem withRetryGo_calls_le (fn : Nat → Except JsError α) :
    ∀ (r att : Nat), (withRetryGo fn r att).calls ≤ r + 1 := by
  intro r
  induction r with
  | zero =>
    intro att
    rcases h : fn att with e | a
    · rcases h2 : onFailedAttemptDelay e att with _ | d
      · simp [withRetryGo_noRetry fn 0 att e h h2]
      · simp [withRetryGo_exhausted fn att e d h h2]
    · simp [withRetryGo_ok fn 0 att a h]
  | succ n ih =>
    intro att
    rcases h : fn att with e | a
    · rcases h2 : onFailedAttemptDelay e att with _ | d
      · simp [withRetryGo_noRetry fn (n + 1) att e h h2]
      · rw [withRetryGo_retryStep fn n att e d h h2]
        have := ih (att + 1)
        simp only []
        omega
    · simp [withRetryGo_ok fn (n + 1) att a h]

theorem withRetryGo_429_then_ok (fn : Nat → Except JsError α) (v : α) :
    ∀ (m r att : Nat), m ≤ r →
      (∀ j, j < m → ∃ ra msg, fn (att + j) = Except.error ⟨some 429, ra, msg⟩) →
      fn (att + m) = Except.ok v →
      (withRetryGo fn r att).result = Except.ok v ∧
      (withRetryGo fn r att).calls = m + 1 ∧
      (withRetryGo fn r att).delays.length = m := by
  intro m
  induction m with
  | zero =>
    intro r att _ _ hok
    rw [Nat.add_zero] at hok
    simp [withRetryGo_ok fn r att v hok]
  | succ k ih =>
    intro r att hm hfail hok
    obtain ⟨ra, msg, hf0⟩ := hfail 0 (Nat.succ_pos k)
    rw [Nat.add_zero] at hf0
    obtain ⟨r2, rfl⟩ : ∃ r2, r = r2 + 1 := ⟨r - 1, by omega⟩
    have hdelay : onFailedAttemptDelay ⟨some 429, ra, msg⟩ att = some (delay429 ra att) := by
      simp [onFailedAttemptDelay]
    have hrec := ih r2 (att + 1) (by omega)
      (fun j hj => by
        have hjj := hfail (j + 1) (by omega)
        rwa [show att + (j + 1) = att + 1 + j by omega] at hjj)
      (by rwa [show att + (k + 1) = att + 1 + k by omega] at hok)
    rw [withRetryGo_retryStep fn r2 att ⟨some 429, ra, msg⟩ (delay429 ra att) hf0 hdelay]
    refine ⟨hrec.1, ?_, ?_⟩
    · simp only []
      rw [hrec.2.1]
    · simp only [List.length_cons]
      rw [hrec.2.2]

/-- C4 (amended): `withRetry(fn, maxRetries)` executes `fn` at most
`maxRetries + 1` times in total, and the source default for `maxRetries`
is 6 (not 7); a function that fails with status 429 exactly `k` times
(`k <= maxRetries`) and then succeeds yields the success value after
exactly `k + 1` invocations with exactly `k` backoff delays. -/
theorem C4_withRetry_counts (fn : Nat → Except JsError α) (maxR k : Nat) (v : α)
    (hk : k ≤ maxR)
    (hfail : ∀ j, j < k → ∃ ra msg, fn (1 + j) = Except.error ⟨some 429, ra, msg⟩)
    (hok : fn (1 + k) = Except.ok v) :
    (withRetry fn maxR).calls ≤ maxR + 1 ∧
    withRetryDefaultRetries = 6 ∧
    (withRetry fn maxR).result = Except.ok v ∧
    (withRetry fn maxR).calls = k + 1 ∧
    (withRetry fn maxR).delays.length = k := by
  have h := withRetryGo_429_then_ok fn v k maxR 1 hk hfail hok
  exact ⟨withRetryGo_calls_le fn maxR 1, rfl, h.1, h.2.1, h.2.2⟩

/-- Concrete retry behaviour: two 429 failures, then success. -/
def retry429Fn (j : Nat) : Except JsError String :=
  if j ≤ 2 then Except.error { status := some 429, retryAfter := none, message := "rate limited" }
  else Except.ok "done"

theorem C4_withRetry_counts_witness :
    (withRetry retry429Fn 6).calls ≤ 6 + 1 ∧
    withRetryDefaultRetries = 6 ∧
    (withRetry retry429Fn 6).result = Except.ok "done" ∧
    (withRetry retry429Fn 6).calls = 2 + 1 ∧
    (withRetry retry429Fn 6).delays.length = 2 :=
  C4_withRetry_counts retry429Fn 6 2 "done" (by omega)
    (fun j hj => ⟨none, "rate limited", by
      match j, hj with
      | 0, _ => rfl
      | 1, _ => rfl⟩)
    rfl

/-- A call that always fails with HTTP 429. -/
def always429Fn (_ : Nat) : Except JsError String :=
  Except.error { status := some 429, retryAfter := none, message := "rate limited" }

/-- C4 counterexample: the source default is `maxRetries = 6`, so an
always-429 function is executed 7 times under the default — the claimed
default of 7 attempts (which would give 8 executions) is wrong. -/
theorem C4_counterexample :
    withRetryDefaultRetries ≠ 7 ∧
    (withRetry always429Fn withRetryDefaultRetries).calls = 7 :=
  ⟨by decide, rfl⟩

/-- C6: a failure whose status is neither 429 nor >= 500 (including a
missing status) is propagated immediately: `fn` runs exactly once, there
is no backoff delay, and the original error is returned. -/
theorem C6_withRetry_nonretryable (fn : Nat → Except JsError α) (maxR : Nat) (e : JsError)
    (h1 : fn 1 = Except.error e)
    (hst : ∀ s, e.status = some s → s ≠ 429 ∧ s < 500) :
    withRetry fn maxR = { result := Except.error e, calls := 1, delays := [] } := by
  have hd : onFailedAttemptDelay e 1 = none := by
    rcases hs : e.status with _ | s
    · simp [onFailedAttemptDelay, hs]
    · obtain ⟨h429, h500⟩ := hst s hs
      simp only [onFailedAttemptDelay, hs]
      rw [if_neg h429, if_neg (by omega)]
  exact withRetryGo_noRetry fn maxR 1 e h1 hd

/-- A call that always fails with HTTP 400. -/
def status400Fn (_ : Nat) : Except JsError String :=
  Except.error { status := some 400, retryAfter := none, message := "Bad Request" }

theorem C6_withRetry_nonretryable_witness :
    withRetry status400Fn 6 =
      { result := Except.error
          { status := some 400, retryAfter := none, message := "Bad Request" },
        calls := 1, delays := [] } :=
  C6_withRetry_nonretryable status400Fn 6
    { status := some 400, retryAfter := none, message := "Bad Request" }
    rfl
    (fun s hs => by
      have h4 : (some (400 : Int) : Option Int) = some s := hs
      have : (400 : Int) = s := Option.some.inj h4
      constructor <;> omega)

/-! ## C5: the token budget tracker contract -/

theorem useTokens_no_reset (windowMs now : Nat) (s : TrackerState) (a : Int)
    (h : now - s.windowStart < windowMs) :
    useTokens windowMs now s a =
      { usedTokens := s.usedTokens + a, windowStart := s.windowStart } := by
  have hno : ¬ (windowMs ≤ now - s.windowStart) := by omega
  simp [useTokens, resetIfNeeded, hno]

theorem applyUses_no_reset (windowMs : Nat) :
    ∀ (calls : List (Nat × Int)) (s : TrackerState),
      (∀ c ∈ calls, c.1 - s.windowStart < windowMs) →
      applyUses windowMs calls s =
        { usedTokens := s.usedTokens + (calls.map Prod.snd).sum,
          windowStart := s.windowStart } := by
  intro calls
  induction calls with
  | nil => intro s h; simp [applyUses]
  | cons c rest ih =>
    intro s h
    have hstep : applyUses windowMs (c :: rest) s
        = applyUses windowMs rest (useTokens windowMs c.1 s c.2) := rfl
    rw [hstep, useTokens_no_reset windowMs c.1 s c.2 (h c (by simp))]
    rw [ih { usedTokens := s.usedTokens + c.2, windowStart := s.windowStart }
      (fun c2 hm => h c2 (List.mem_cons_of_mem c hm))]
    simp only [List.map_cons, List.sum_cons]
    congr 1
    ring

/-- C5: starting from a fresh tracker, for any sequence of `useTokens`
calls within one window (no lazy reset fires): `usedTokens` is the plain
sum of the amounts (`useTokens` never rejects or clamps, even past the
capacity), `canUseTokens e` answers true exactly when
`usedTokens + e <= capacity`, and `getRemainingTokens` equals
`max 0 (capacity - usedTokens)` and is never negative. -/
theorem C5_tracker_contract (windowMs : Nat) (tpm : Int) (t0 now : Nat)
    (calls : List (Nat × Int)) (e a : Int)
    (hcalls : ∀ c ∈ calls, c.1 - t0 < windowMs)
    (hnow : now - t0 < windowMs)
    (he : 0 ≤ e) (ha : 0 ≤ a)
    (hamts : ∀ c ∈ calls, 0 ≤ c.2) :
    (applyUses windowMs calls ⟨0, t0⟩).usedTokens = (calls.map Prod.snd).sum ∧
    ((canUseTokens windowMs tpm now (applyUses windowMs calls ⟨0, t0⟩) e).1 = true ↔
      (calls.map Prod.snd).sum + e ≤ tpm) ∧
    (getRemainingTokens windowMs tpm now (applyUses windowMs calls ⟨0, t0⟩)).1 =
      max 0 (tpm - (calls.map Prod.snd).sum) ∧
    0 ≤ (getRemainingTokens windowMs tpm now (applyUses windowMs calls ⟨0, t0⟩)).1 ∧
    (useTokens windowMs now (applyUses windowMs calls ⟨0, t0⟩) a).usedTokens =
      (calls.map Prod.snd).sum + a := by
  have hs := applyUses_no_reset windowMs calls ⟨0, t0⟩ (by simpa using hcalls)
  rw [hs]
  have hno : ¬ (windowMs ≤ now - t0) := by omega
  refine ⟨by simp, ?_, ?_, ?_, ?_⟩
  · simp [canUseTokens, resetIfNeeded, hno]
  · simp [getRemainingTokens, resetIfNeeded, hno]
  · simp [getRemainingTokens, resetIfNeeded, hno]
  · rw [useTokens_no_reset windowMs now _ a (by simpa using hnow)]
    simp

theorem C5_tracker_contract_witness :
    (applyUses 60000 [(10, 300), (20, 400)] ⟨0, 0⟩).usedTokens
      = (([(10, 300), (20, 400)] : List (Nat × Int)).map Prod.snd).sum ∧
    ((canUseTokens 60000 1000 30 (applyUses 60000 [(10, 300), (20, 400)] ⟨0, 0⟩) 200).1
        = true ↔
      (([(10, 300), (20, 400)] : List (Nat × Int)).map Prod.snd).sum + 200 ≤ 1000) ∧
    (getRemainingTokens 60000 1000 30 (applyUses 60000 [(10, 300), (20, 400)] ⟨0, 0⟩)).1 =
      max 0 (1000 - (([(10, 300), (20, 400)] : List (Nat × Int)).map Prod.snd).sum) ∧
    0 ≤ (getRemainingTokens 60000 1000 30 (applyUses 60000 [(10, 300), (20, 400)] ⟨0, 0⟩)).1 ∧
    (useTokens 60000 30 (applyUses 60000 [(10, 300), (20, 400)] ⟨0, 0⟩) 500).usedTokens =
      (([(10, 300), (20, 400)] : List (Nat × Int)).map Prod.snd).sum + 500 :=
  C5_tracker_contract 60000 1000 0 30 [(10, 300), (20, 400)] 200 500
    (by decide) (by decide) (by decide) (by decide) (by decide)

/-! ## Helper lemmas: the map loop -/

theorem mapSegmentBody_skip (cfg : SummarizeCfg) (pof : String → String) (tc : String → Int)
    (inv : Nat → Nat → InvokeOutcome) (d : Doc) (st : MapState)
    (hpc : d.pageContent = "") :
    mapSegmentBody cfg pof tc inv d st = (st, none) := by
  simp [mapSegmentBody, hpc]

theorem mapSegmentBody_impossible (cfg : SummarizeCfg) (pof : String → String)
    (tc : String → Int) (inv : Nat → Nat → InvokeOutcome) (d : Doc) (st : MapState)
    (hpc : ¬ (d.pageContent = ""))
    (hest : cfg.TOKENS_PER_MINUTE < tc (pof d.pageContent) + cfg.MAP_OUT_MAX) :
    mapSegmentBody cfg pof tc inv d st =
      (st, some ⟨none, none,
        mapEstimateMsg (tc (pof d.pageContent) + cfg.MAP_OUT_MAX) cfg.TOKENS_PER_MINUTE⟩) := by
  simp [mapSegmentBody, hpc, hest]

theorem mapSegmentBody_timeout (cfg : SummarizeCfg) (pof : String → String)
    (tc : String → Int) (inv : Nat → Nat → InvokeOutcome) (d : Doc) (st : MapState)
    (need rem : Int) (t2 : Nat) (s2 : TrackerState)
    (hpc : ¬ (d.pageContent = ""))
    (hest : ¬ (cfg.TOKENS_PER_MINUTE < tc (pof d.pageContent) + cfg.MAP_OUT_MAX))
    (hwait : waitForBudget cfg.TOKEN_BUDGET_WINDOWS cfg.TOKENS_PER_MINUTE
      cfg.TOKEN_BUDGET_TIMEOUT (tc (pof d.pageContent) + cfg.MAP_OUT_MAX) st.time st.time
      st.tracker = WaitResult.timeout need rem t2 s2) :
    mapSegmentBody cfg pof tc inv d st =
      ({ st with time := t2, tracker := s2 },
       some { status := none, retryAfter := none,
              message := budgetTimeoutMsg cfg.TOKEN_BUDGET_TIMEOUT need rem }) := by
  simp [mapSegmentBody, hpc, hest, hwait]

theorem mapSegmentBody_admitted_ok_push (cfg : SummarizeCfg) (pof : String → String)
    (tc : String → Int) (inv : Nat → Nat → InvokeOutcome) (d : Doc) (st : MapState)
    (t2 : Nat) (s2 : TrackerState) (pr : String × Option Int)
    (hpc : ¬ (d.pageContent = ""))
    (hest : ¬ (cfg.TOKENS_PER_MINUTE < tc (pof d.pageContent) + cfg.MAP_OUT_MAX))
    (hwait : waitForBudget cfg.TOKEN_BUDGET_WINDOWS cfg.TOKENS_PER_MINUTE
      cfg.TOKEN_BUDGET_TIMEOUT (tc (pof d.pageContent) + cfg.MAP_OUT_MAX) st.time st.time
      st.tracker = WaitResult.admitted t2 s2)
    (hres : (withRetry (mapCallFn inv d.chunk) withRetryDefaultRetries).result = Except.ok pr)
    (htrim : ¬ (strTrim pr.1 = "")) :
    mapSegmentBody cfg pof tc inv d st =
      ({ time := t2 + (withRetry (mapCallFn inv d.chunk) withRetryDefaultRetries).delays.sum,
         tracker := useTokens cfg.TOKEN_BUDGET_WINDOWS
           (t2 + (withRetry (mapCallFn inv d.chunk) withRetryDefaultRetries).delays.sum) s2
           (actualTokensUsed pr.2 (tc (pof d.pageContent) + cfg.MAP_OUT_MAX)),
         parts := st.parts ++ [strTrim pr.1],
         calls := st.calls ++ (List.range (withRetry (mapCallFn inv d.chunk)
           withRetryDefaultRetries).calls).map (fun j => (d.chunk, j + 1)) }, none) := by
  simp [mapSegmentBody, hpc, hest, hwait, hres, htrim]

theorem mapSegmentBody_admitted_ok_empty (cfg : SummarizeCfg) (pof : String → String)
    (tc : String → Int) (inv : Nat → Nat → InvokeOutcome) (d : Doc) (st : MapState)
    (t2 : Nat) (s2 : TrackerState) (pr : String × Option Int)
    (hpc : ¬ (d.pageContent = ""))
    (hest : ¬ (cfg.TOKENS_PER_MINUTE < tc (pof d.pageContent) + cfg.MAP_OUT_MAX))
    (hwait : waitForBudget cfg.TOKEN_BUDGET_WINDOWS cfg.TOKENS_PER_MINUTE
      cfg.TOKEN_BUDGET_TIMEOUT (tc (pof d.pageContent) + cfg.MAP_OUT_MAX) st.time st.time
      st.tracker = WaitResult.admitted t2 s2)
    (hres : (withRetry (mapCallFn inv d.chunk) withRetryDefaultRetries).result = Except.ok pr)
    (htrim : strTrim pr.1 = "") :
    mapSegmentBody cfg pof tc inv d st =
      ({ time := t2 + (withRetry (mapCallFn inv d.chunk) withRetryDefaultRetries).delays.sum,
         tracker := useTokens cfg.TOKEN_BUDGET_WINDOWS
           (t2 + (withRetry (mapCallFn inv d.chunk) withRetryDefaultRetries).delays.sum) s2
           (actualTokensUsed pr.2 (tc (pof d.pageContent) + cfg.MAP_OUT_MAX)),
         parts := st.parts,
         calls := st.calls ++ (List.range (withRetry (mapCallFn inv d.chunk)
           withRetryDefaultRetries).calls).map (fun j => (d.chunk, j + 1)) }, none) := by
  simp [mapSegmentBody, hpc, hest, hwait, hres, htrim]

theorem mapSegmentBody_admitted_err (cfg : SummarizeCfg) (pof : String → String)
    (tc : String → Int) (inv : Nat → Nat → InvokeOutcome) (d : Doc) (st : MapState)
    (t2 : Nat) (s2 : TrackerState) (e : JsError)
    (hpc : ¬ (d.pageContent = ""))
    (hest : ¬ (cfg.TOKENS_PER_MINUTE < tc (pof d.pageContent) + cfg.MAP_OUT_MAX))
    (hwait : waitForBudget cfg.TOKEN_BUDGET_WINDOWS cfg.TOKENS_PER_MINUTE
      cfg.TOKEN_BUDGET_TIMEOUT (tc (pof d.pageContent) + cfg.MAP_OUT_MAX) st.time st.time
      st.tracker = WaitResult.admitted t2 s2)
    (hres : (withRetry (mapCallFn inv d.chunk) withRetryDefaultRetries).result
      = Except.error e) :
    mapSegmentBody cfg pof tc inv d st =
      ({ time := t2 + (withRetry (mapCallFn inv d.chunk) withRetryDefaultRetries).delays.sum,
         tracker := s2,
         parts := st.parts,
         calls := st.calls ++ (List.range (withRetry (mapCallFn inv d.chunk)
           withRetryDefaultRetries).calls).map (fun j => (d.chunk, j + 1)) }, some e) := by
  simp [mapSegmentBody, hpc, hest, hwait, hres]

theorem mapLoop_nil (cfg : SummarizeCfg) (pof : String → String) (tc : String → Int)
    (inv : Nat → Nat → InvokeOutcome) (st : MapState) :
    mapLoop cfg pof tc inv [] st = (st, none) := rfl

theorem mapLoop_cons_continue (cfg : SummarizeCfg) (pof : String → String) (tc : String → Int)
    (inv : Nat → Nat → InvokeOutcome) (d : Doc) (rest : List Doc) (st st2 : MapState)
    (h : mapSegmentBody cfg pof tc inv d st = (st2, none)) :
    mapLoop cfg pof tc inv (d :: rest) st = mapLoop cfg pof tc inv rest st2 := by
  simp [mapLoop, h]

theorem mapLoop_cons_caught (cfg : SummarizeCfg) (pof : String → String) (tc : String → Int)
    (inv : Nat → Nat → InvokeOutcome) (d : Doc) (rest : List Doc) (st st2 : MapState)
    (e : JsError)
    (h : mapSegmentBody cfg pof tc inv d st = (st2, some e))
    (hc : strContains e.message budgetTimeoutPhrase = false) :
    mapLoop cfg pof tc inv (d :: rest) st = mapLoop cfg pof tc inv rest st2 := by
  simp [mapLoop, h, hc]

theorem mapLoop_cons_abort (cfg : SummarizeCfg) (pof : String → String) (tc : String → Int)
    (inv : Nat → Nat → InvokeOutcome) (d : Doc) (rest : List Doc) (st st2 : MapState)
    (e : JsError)
    (h : mapSegmentBody cfg pof tc inv d st = (st2, some e))
    (hc : strContains e.message budgetTimeoutPhrase = true) :
    mapLoop cfg pof tc inv (d :: rest) st = (st2, some e) := by
  simp [mapLoop, h, hc]

theorem mapLoop_append (cfg : SummarizeCfg) (pof : String → String) (tc : String → Int)
    (inv : Nat → Nat → InvokeOutcome) :
    ∀ (ds bs : List Doc) (st st2 : MapState),
      mapLoop cfg pof tc inv ds st = (st2, none) →
      mapLoop cfg pof tc inv (ds ++ bs) st = mapLoop cfg pof tc inv bs st2 := by
  intro ds
  induction ds with
  | nil =>
    intro bs st st2 h
    rw [mapLoop_nil] at h
    cases h
    rfl
  | cons d rest ih =>
    intro bs st st2 h
    rcases hseg : mapSegmentBody cfg pof tc inv d st with ⟨stm, oe⟩
    rcases oe with _ | e
    · rw [mapLoop_cons_continue cfg pof tc inv d rest st stm hseg] at h
      rw [List.cons_append, mapLoop_cons_continue cfg pof tc inv d (rest ++ bs) st stm hseg]
      exact ih bs stm st2 h
    · rcases hc : strContains e.message budgetTimeoutPhrase with _ | _
      · rw [mapLoop_cons_caught cfg pof tc inv d rest st stm e hseg hc] at h
        rw [List.cons_append, mapLoop_cons_caught cfg pof tc inv d (rest ++ bs) st stm e hseg hc]
        exact ih bs stm st2 h
      · rw [mapLoop_cons_abort cfg pof tc inv d rest st stm e hseg hc] at h
        cases h

/-- Under a run of the map loop that is not aborted by a budget timeout,
the collected partials and the invocation trace are determined
per-document: partials are the ordered `filterMap` of the per-document
success outputs, and the trace is the in-order concatenation of each
document's attempt block. -/
theorem mapLoop_no_abort_spec (cfg : SummarizeCfg) (pof : String → String) (tc : String → Int)
    (inv : Nat → Nat → InvokeOutcome) :
    ∀ (docs : List Doc) (st : MapState),
      (mapLoop cfg pof tc inv docs st).2 = none →
      (mapLoop cfg pof tc inv docs st).1.parts =
        st.parts ++ docs.filterMap (segSuccessOutput cfg pof tc inv) ∧
      (mapLoop cfg pof tc inv docs st).1.calls =
        st.calls ++ (docs.map (fun d => (List.range (segCallCount cfg pof tc inv d)).map
          (fun j => (d.chunk, j + 1)))).flatten := by
  intro docs
  induction docs with
  | nil =>
    intro st h
    simp [mapLoop_nil]
  | cons d rest ih =>
    intro st h
    by_cases hpc : d.pageContent = ""
    · have hbody := mapSegmentBody_skip cfg pof tc inv d st hpc
      rw [mapLoop_cons_continue cfg pof tc inv d rest st st hbody] at h ⊢
      obtain ⟨h1, h2⟩ := ih st h
      refine ⟨?_, ?_⟩
      · rw [h1]
        simp [segSuccessOutput, hpc]
      · rw [h2]
        simp [segCallCount, hpc]
    · by_cases hest : cfg.TOKENS_PER_MINUTE < tc (pof d.pageContent) + cfg.MAP_OUT_MAX
      · have hbody := mapSegmentBody_impossible cfg pof tc inv d st hpc hest
        rcases hc : strContains (mapEstimateMsg (tc (pof d.pageContent) + cfg.MAP_OUT_MAX)
            cfg.TOKENS_PER_MINUTE) budgetTimeoutPhrase with _ | _
        · rw [mapLoop_cons_caught cfg pof tc inv d rest st st _ hbody hc] at h ⊢
          obtain ⟨h1, h2⟩ := ih st h
          refine ⟨?_, ?_⟩
          · rw [h1]
            simp [segSuccessOutput, hpc, hest]
          · rw [h2]
            simp [segCallCount, hpc, hest]
        · rw [mapLoop_cons_abort cfg pof tc inv d rest st st _ hbody hc] at h
          simp at h
      · rcases hw : waitForBudget cfg.TOKEN_BUDGET_WINDOWS cfg.TOKENS_PER_MINUTE
            cfg.TOKEN_BUDGET_TIMEOUT (tc (pof d.pageContent) + cfg.MAP_OUT_MAX) st.time st.time
            st.tracker with ⟨t2, s2⟩ | ⟨need, rem, t2, s2⟩
        · -- admitted: the queued retried call runs
          rcases hres : (withRetry (mapCallFn inv d.chunk) withRetryDefaultRetries).result
              with e | pr
          · -- the retried call failed: caught and skipped, or aborted
            have hbody := mapSegmentBody_admitted_err cfg pof tc inv d st t2 s2 e hpc hest hw hres
            rcases hc : strContains e.message budgetTimeoutPhrase with _ | _
            · rw [mapLoop_cons_caught cfg pof tc inv d rest st _ _ hbody hc] at h ⊢
              obtain ⟨h1, h2⟩ := ih _ h
              refine ⟨?_, ?_⟩
              · rw [h1]
                simp [segSuccessOutput, hpc, hest, hres]
              · rw [h2]
                simp [segCallCount, hpc, hest, List.append_assoc]
            · rw [mapLoop_cons_abort cfg pof tc inv d rest st _ _ hbody hc] at h
              simp at h
          · -- the retried call succeeded
            by_cases htrim : strTrim pr.1 = ""
            · have hbody := mapSegmentBody_admitted_ok_empty cfg pof tc inv d st t2 s2 pr
                hpc hest hw hres htrim
              rw [mapLoop_cons_continue cfg pof tc inv d rest st _ hbody] at h ⊢
              obtain ⟨h1, h2⟩ := ih _ h
              refine ⟨?_, ?_⟩
              · rw [h1]
                simp [segSuccessOutput, hpc, hest, hres, htrim]
              · rw [h2]
                simp [segCallCount, hpc, hest, List.append_assoc]
            · have hbody := mapSegmentBody_admitted_ok_push cfg pof tc inv d st t2 s2 pr
                hpc hest hw hres htrim
              rw [mapLoop_cons_continue cfg pof tc inv d rest st _ hbody] at h ⊢
              obtain ⟨h1, h2⟩ := ih _ h
              refine ⟨?_, ?_⟩
              · rw [h1]
                simp [segSuccessOutput, hpc, hest, hres, htrim, List.append_assoc]
              · rw [h2]
                simp [segCallCount, hpc, hest, List.append_assoc]
        · -- timeout: the loop aborts, contradicting the hypothesis
          have hbody := mapSegmentBody_timeout cfg pof tc inv d st need rem t2 s2 hpc hest hw
          rw [mapLoop_cons_abort cfg pof tc inv d rest st _ _ hbody
            (budgetTimeoutMsg_contains cfg.TOKEN_BUDGET_TIMEOUT need rem)] at h
          simp at h

/-- The per-segment body never reads `QUEUE_CONCURRENCY`: since the
loop awaits each queued call before the next iteration, the concurrency
setting cannot influence the semantics. -/
theorem mapSegmentBody_concurrency_irrel (cfg : SummarizeCfg) (n : Nat)
    (pof : String → String) (tc : String → Int) (inv : Nat → Nat → InvokeOutcome)
    (d : Doc) (st : MapState) :
    mapSegmentBody { cfg with QUEUE_CONCURRENCY := n } pof tc inv d st
      = mapSegmentBody cfg pof tc inv d st := rfl

theorem mapLoop_concurrency_irrel (cfg : SummarizeCfg) (n : Nat)
    (pof : String → String) (tc : String → Int) (inv : Nat → Nat → InvokeOutcome) :
    ∀ (docs : List Doc) (st : MapState),
      mapLoop { cfg with QUEUE_CONCURRENCY := n } pof tc inv docs st
        = mapLoop cfg pof tc inv docs st := by
  intro docs
  induction docs with
  | nil => intro st; rfl
  | cons d rest ih =>
    intro st
    have hseg2 : mapSegmentBody { cfg with QUEUE_CONCURRENCY := n } pof tc inv d st
        = mapSegmentBody cfg pof tc inv d st := rfl
    rcases hseg : mapSegmentBody cfg pof tc inv d st with ⟨stm, oe⟩
    rcases oe with _ | e
    · rw [mapLoop_cons_continue { cfg with QUEUE_CONCURRENCY := n } pof tc inv d rest st stm
        (hseg2.trans hseg), mapLoop_cons_continue cfg pof tc inv d rest st stm hseg, ih stm]
    · rcases hc : strContains e.message budgetTimeoutPhrase with _ | _
      · rw [mapLoop_cons_caught { cfg with QUEUE_CONCURRENCY := n } pof tc inv d rest st stm e
          (hseg2.trans hseg) hc, mapLoop_cons_caught cfg pof tc inv d rest st stm e hseg hc,
          ih stm]
      · rw [mapLoop_cons_abort { cfg with QUEUE_CONCURRENCY := n } pof tc inv d rest st stm e
          (hseg2.trans hseg) hc, mapLoop_cons_abort cfg pof tc inv d rest st stm e hseg hc]

theorem mapPhaseRun_concurrency_irrel (cfg : SummarizeCfg) (n : Nat)
    (pof : String → String) (tc : String → Int) (inv : Nat → Nat → InvokeOutcome)
    (docs : List Doc) (t0 : Nat) :
    mapPhaseRun { cfg with QUEUE_CONCURRENCY := n } pof tc inv docs t0
      = mapPhaseRun cfg pof tc inv docs t0 := by
  unfold mapPhaseRun
  rw [mapLoop_concurrency_irrel]

/-! ## C3: impossible estimates are skipped, not fatal -/

/-- C3 (amended): a map segment whose estimate exceeds
`TOKENS_PER_MINUTE` throws the impossible-estimate error before any
model call for that segment; because its message does not carry the
budget-timeout marker, the per-segment handler catches it and the loop
continues with the remaining documents, the state (tracker, clock,
partials, call trace) unchanged — the run fails only if no other
segment succeeds. -/
theorem C3_impossible_estimate_skipped (cfg : SummarizeCfg) (pof : String → String)
    (tc : String → Int) (inv : Nat → Nat → InvokeOutcome) (d : Doc) (rest : List Doc)
    (st : MapState)
    (hpc : ¬ (d.pageContent = ""))
    (hest : cfg.TOKENS_PER_MINUTE < tc (pof d.pageContent) + cfg.MAP_OUT_MAX)
    (hmsg : strContains (mapEstimateMsg (tc (pof d.pageContent) + cfg.MAP_OUT_MAX)
        cfg.TOKENS_PER_MINUTE) budgetTimeoutPhrase = false) :
    mapSegmentBody cfg pof tc inv d st =
      (st, some ⟨none, none,
        mapEstimateMsg (tc (pof d.pageContent) + cfg.MAP_OUT_MAX) cfg.TOKENS_PER_MINUTE⟩) ∧
    mapLoop cfg pof tc inv (d :: rest) st = mapLoop cfg pof tc inv rest st := by
  have hbody := mapSegmentBody_impossible cfg pof tc inv d st hpc hest
  exact ⟨hbody, mapLoop_cons_caught cfg pof tc inv d rest st st _ hbody hmsg⟩

/-! ## C8: budget timeouts abort the whole run -/

/-- C8: when the token-budget wait of a map segment times out, the
thrown error carries the budget-timeout marker, so the per-segment
handler re-throws it: the loop stops at once (the remaining documents
are never processed and the trace and partials stay as they were), and
the whole run fails with the wrapped budget-timeout error. -/
theorem C8_budget_timeout_aborts (cfg : SummarizeCfg) (pof : String → String)
    (tc : String → Int) (inv : Nat → Nat → InvokeOutcome) (d : Doc) (rest pre : List Doc)
    (st : MapState) (need rem : Int) (t2 : Nat) (s2 : TrackerState) (t0 : Nat)
    (hpc : ¬ (d.pageContent = ""))
    (hest : ¬ (cfg.TOKENS_PER_MINUTE < tc (pof d.pageContent) + cfg.MAP_OUT_MAX))
    (hwait : waitForBudget cfg.TOKEN_BUDGET_WINDOWS cfg.TOKENS_PER_MINUTE
      cfg.TOKEN_BUDGET_TIMEOUT (tc (pof d.pageContent) + cfg.MAP_OUT_MAX) st.time st.time
      st.tracker = WaitResult.timeout need rem t2 s2)
    (hpre : mapLoop cfg pof tc inv pre (initialMapState t0) = (st, none)) :
    strContains (budgetTimeoutMsg cfg.TOKEN_BUDGET_TIMEOUT need rem) budgetTimeoutPhrase
      = true ∧
    mapLoop cfg pof tc inv (d :: rest) st =
      ({ st with time := t2, tracker := s2 },
       some ⟨none, none, budgetTimeoutMsg cfg.TOKEN_BUDGET_TIMEOUT need rem⟩) ∧
    mapPhaseRun cfg pof tc inv (pre ++ d :: rest) t0 =
      ({ st with time := t2, tracker := s2 },
       some ⟨none, none,
        mapPhaseFailedMsg (budgetTimeoutMsg cfg.TOKEN_BUDGET_TIMEOUT need rem)⟩) := by
  have hbody := mapSegmentBody_timeout cfg pof tc inv d st need rem t2 s2 hpc hest hwait
  have habort := mapLoop_cons_abort cfg pof tc inv d rest st _ _ hbody
    (budgetTimeoutMsg_contains cfg.TOKEN_BUDGET_TIMEOUT need rem)
  refine ⟨budgetTimeoutMsg_contains cfg.TOKEN_BUDGET_TIMEOUT need rem, habort, ?_⟩
  unfold mapPhaseRun
  rw [mapLoop_append cfg pof tc inv pre (d :: rest) (initialMapState t0) st hpre, habort]

/-! ## C9: permanent per-segment failures are skipped; failure of the
map phase is equivalent to zero successes -/

/-- C9 (amended): absent a budget-timeout abort, every permanently
failing segment (exhausted retries, empty response, impossible
estimate, missing content) is skipped while the remaining segments are
still processed: the partial list handed on is exactly the ordered
success outputs, the map phase fails precisely when that list is empty,
and a successful map phase hands exactly those partials to the
hierarchical reduce phase (whose own failure can still fail the run). -/
theorem C9_map_failures_skipped (cfg : SummarizeCfg) (pof cof : String → String)
    (tc : String → Int) (inv invR : Nat → Nat → InvokeOutcome) (docs : List Doc) (t0 : Nat)
    (hnoabort : (mapLoop cfg pof tc inv docs (initialMapState t0)).2 = none) :
    (mapLoop cfg pof tc inv docs (initialMapState t0)).1.parts =
      docs.filterMap (segSuccessOutput cfg pof tc inv) ∧
    ((mapPhaseRun cfg pof tc inv docs t0).2.isSome ↔
      docs.filterMap (segSuccessOutput cfg pof tc inv) = []) ∧
    (docs ≠ [] →
      docs.filterMap (segSuccessOutput cfg pof tc inv) ≠ [] →
      summarizeWithQueue cfg pof cof tc inv invR docs t0 =
        (match hierarchicalReduceE (reduceJobE cfg cof tc invR) cfg.HIERARCHY_GROUP_SIZE
            (mapLoop cfg pof tc inv docs (initialMapState t0)).1.parts.length
            (mapLoop cfg pof tc inv docs (initialMapState t0)).1.parts
            { time := (mapLoop cfg pof tc inv docs (initialMapState t0)).1.time,
              tracker := (mapLoop cfg pof tc inv docs (initialMapState t0)).1.tracker,
              jobIdx := 0 } with
         | (_, Except.error e) =>
            Except.error { status := none, retryAfter := none,
                           message := reducePhaseFailedMsg e.message }
         | (_, Except.ok final) =>
            if strTrim final = "" then
              Except.error { status := none, retryAfter := none,
                             message := reducePhaseFailedMsg emptyFinalMsg }
            else Except.ok (strTrim final))) := by
  obtain ⟨h1, h2⟩ := mapLoop_no_abort_spec cfg pof tc inv docs (initialMapState t0) hnoabort
  have hloop : mapLoop cfg pof tc inv docs (initialMapState t0)
      = ((mapLoop cfg pof tc inv docs (initialMapState t0)).1, none) := by
    rw [← hnoabort]
  have hparts : (mapLoop cfg pof tc inv docs (initialMapState t0)).1.parts =
      docs.filterMap (segSuccessOutput cfg pof tc inv) := by
    rw [h1]
    simp [initialMapState]
  obtain ⟨stv, hstv⟩ : ∃ stv, mapLoop cfg pof tc inv docs (initialMapState t0) = (stv, none) :=
    ⟨(mapLoop cfg pof tc inv docs (initialMapState t0)).1, hloop⟩
  have hstv1 : (mapLoop cfg pof tc inv docs (initialMapState t0)).1 = stv := by rw [hstv]
  have hpartsv : stv.parts = docs.filterMap (segSuccessOutput cfg pof tc inv) := by
    rw [← hstv1]
    exact hparts
  refine ⟨hparts, ?_, ?_⟩
  · unfold mapPhaseRun
    simp only [hstv]
    by_cases hp : stv.parts = []
    · rw [if_pos hp]
      exact iff_of_true (by simp) (by rw [← hpartsv]; exact hp)
    · rw [if_neg hp]
      exact iff_of_false (by simp) (by rw [← hpartsv]; exact hp)
  · intro hdocs hne
    rw [hstv1]
    unfold summarizeWithQueue
    rw [if_neg hdocs]
    have hrun : mapPhaseRun cfg pof tc inv docs t0 = (stv, none) := by
      unfold mapPhaseRun
      simp only [hstv]
      rw [if_neg (by rw [hpartsv]; exact hne)]
    simp only [hrun]

/-! ## C10: the map phase is sequential and order-preserving -/

/-- C10: because the loop awaits each queued call before the next
iteration, one document's whole attempt block precedes the next
document's in the invocation trace (the trace is the in-order
concatenation of per-document blocks), the partial list is the ordered
`filterMap` over the input documents — in input (chunk) order by
construction, with no separate reordering step — and the run is
entirely independent of the configured `QUEUE_CONCURRENCY`. -/
theorem C10_map_sequential_order (cfg : SummarizeCfg) (pof : String → String)
    (tc : String → Int) (inv : Nat → Nat → InvokeOutcome) (docs : List Doc) (t0 : Nat)
    (n : Nat)
    (hnoabort : (mapLoop cfg pof tc inv docs (initialMapState t0)).2 = none) :
    (mapLoop cfg pof tc inv docs (initialMapState t0)).1.parts =
      docs.filterMap (segSuccessOutput cfg pof tc inv) ∧
    (mapLoop cfg pof tc inv docs (initialMapState t0)).1.calls =
      (docs.map (fun d => (List.range (segCallCount cfg pof tc inv d)).map
        (fun j => (d.chunk, j + 1)))).flatten ∧
    mapPhaseRun { cfg with QUEUE_CONCURRENCY := n } pof tc inv docs t0
      = mapPhaseRun cfg pof tc inv docs t0 ∧
    mapLoop { cfg with QUEUE_CONCURRENCY := n } pof tc inv docs (initialMapState t0)
      = mapLoop cfg pof tc inv docs (initialMapState t0) := by
  obtain ⟨h1, h2⟩ := mapLoop_no_abort_spec cfg pof tc inv docs (initialMapState t0) hnoabort
  refine ⟨?_, ?_, ?_, ?_⟩
  · rw [h1]
    simp [initialMapState]
  · rw [h2]
    simp [initialMapState]
  · exact mapPhaseRun_concurrency_irrel cfg n pof tc inv docs t0
  · exact mapLoop_concurrency_irrel cfg n pof tc inv docs (initialMapState t0)

theorem hierarchicalReduceE_base (job : String → RedState → RedState × Except JsError String)
    (g fuel : Nat) (texts : List String) (rs : RedState) (h : texts.length ≤ g) :
    hierarchicalReduceE job g (fuel + 1) texts rs = job (sepJoin texts) rs := by
  conv_lhs => unfold hierarchicalReduceE
  rw [if_pos h]

/-! ## Concrete scenario A: an impossible map estimate next to a
succeeding segment -/

/-- A concrete token counter: 100 tokens per character. -/
def tcLen100 (s : String) : Int := (s.length : Int) * 100

/-- Configuration of scenario A: TPM 1000, map output cap 100. -/
def cfgA : SummarizeCfg :=
  { TOKENS_PER_MINUTE := 1000, TOKEN_BUDGET_TIMEOUT := 10000, REQUESTS_PER_MINUTE := 20,
    QUEUE_INTERVAL := 60000, QUEUE_CONCURRENCY := 3, TOKEN_BUDGET_WINDOWS := 1000000000,
    MAP_OUT_MAX := 100, REDUCE_OUT_MAX := 100, HIERARCHY_GROUP_SIZE := 2 }

/-- Scenario A documents: chunk 0 estimates 1500 (> 1000), chunk 1
estimates 300. -/
def docsA : List Doc :=
  [{ pageContent := "x-long-content", chunk := 0, tokenCount := 14 },
   { pageContent := "ok", chunk := 1, tokenCount := 2 }]

/-- Scenario A model oracle: chunk 1 answers at once; any other chunk
would fail with HTTP 500 (it is never reached). -/
def invA (chunk _attempt : Nat) : InvokeOutcome :=
  if chunk = 1 then InvokeOutcome.ok "sum2" (some 250)
  else InvokeOutcome.fail ⟨some 500, none, "Internal Server Error"⟩

/-- Scenario A reduce oracle. -/
def invRA (_jobIdx _attempt : Nat) : InvokeOutcome :=
  InvokeOutcome.ok "final-sum" (some 100)

theorem scenarioA_mapLoop :
    mapLoop cfgA id tcLen100 invA docsA (initialMapState 0)
      = ({ time := 0, tracker := { usedTokens := 250, windowStart := 0 },
           parts := ["sum2"], calls := [(1, 1)] }, none) := by
  have hseg0 := mapSegmentBody_impossible cfgA id tcLen100 invA
    { pageContent := "x-long-content", chunk := 0, tokenCount := 14 }
    (initialMapState 0) (by decide) (by decide)
  have hw : waitForBudget cfgA.TOKEN_BUDGET_WINDOWS cfgA.TOKENS_PER_MINUTE
      cfgA.TOKEN_BUDGET_TIMEOUT (tcLen100 (id "ok") + cfgA.MAP_OUT_MAX) 0 0
      { usedTokens := 0, windowStart := 0 }
      = WaitResult.admitted 0 { usedTokens := 0, windowStart := 0 } := by
    rw [waitForBudget_eq_admitted]
    · decide
    · decide
  have hseg1 := mapSegmentBody_admitted_ok_push cfgA id tcLen100 invA
    { pageContent := "ok", chunk := 1, tokenCount := 2 } (initialMapState 0)
    0 { usedTokens := 0, windowStart := 0 } ("sum2", some 250)
    (by decide) (by decide) hw rfl (by decide)
  rw [show docsA =
    { pageContent := "x-long-content", chunk := 0, tokenCount := 14 } ::
      [{ pageContent := "ok", chunk := 1, tokenCount := 2 }] from rfl]
  rw [mapLoop_cons_caught cfgA id tcLen100 invA _ _ _ _ _ hseg0 (by decide)]
  rw [mapLoop_cons_continue cfgA id tcLen100 invA _ _ _ _ hseg1]
  rw [mapLoop_nil]
  decide

theorem reduceJobE_ok (cfg : SummarizeCfg) (cof : String → String) (tc : String → Int)
    (invR : Nat → Nat → InvokeOutcome) (joined : String) (rs : RedState)
    (t2 : Nat) (s2 : TrackerState) (pr : String × Option Int)
    (hne : ¬ (strTrim joined = ""))
    (hest : ¬ (cfg.TOKENS_PER_MINUTE < tc (cof joined) + cfg.REDUCE_OUT_MAX))
    (hwait : waitForBudget cfg.TOKEN_BUDGET_WINDOWS cfg.TOKENS_PER_MINUTE
      cfg.TOKEN_BUDGET_TIMEOUT (tc (cof joined) + cfg.REDUCE_OUT_MAX) rs.time rs.time
      rs.tracker = WaitResult.admitted t2 s2)
    (hres : (withRetry (reduceCallFn invR rs.jobIdx) withRetryDefaultRetries).result
      = Except.ok pr) :
    reduceJobE cfg cof tc invR joined rs =
      ({ time := t2 + (withRetry (reduceCallFn invR rs.jobIdx)
            withRetryDefaultRetries).delays.sum,
         tracker := useTokens cfg.TOKEN_BUDGET_WINDOWS
           (t2 + (withRetry (reduceCallFn invR rs.jobIdx) withRetryDefaultRetries).delays.sum)
           s2 (actualTokensUsed pr.2 (tc (cof joined) + cfg.REDUCE_OUT_MAX)),
         jobIdx := rs.jobIdx + 1 },
       Except.ok (strTrim pr.1)) := by
  simp [reduceJobE, hne, hest, hwait, hres]

/-- C3 counterexample: with two documents whose first has an impossible
estimate (1500 > TPM 1000) and whose second is fine, the map phase does
not fail — the impossible segment is skipped while the other one is
processed (one model call, for chunk 1 only), and the whole run
succeeds.  This refutes the claim that the whole run fails with an
impossible-estimate error before any model call. -/
theorem C3_counterexample :
    (mapPhaseRun cfgA id tcLen100 invA docsA 0).2 = none ∧
    (mapPhaseRun cfgA id tcLen100 invA docsA 0).1.parts = ["sum2"] ∧
    (mapPhaseRun cfgA id tcLen100 invA docsA 0).1.calls = [(1, 1)] ∧
    summarizeWithQueue cfgA id id tcLen100 invA invRA docsA 0 = Except.ok "final-sum" := by
  have hrun : mapPhaseRun cfgA id tcLen100 invA docsA 0
      = ({ time := 0, tracker := { usedTokens := 250, windowStart := 0 },
           parts := ["sum2"], calls := [(1, 1)] }, none) := by
    unfold mapPhaseRun
    simp only [scenarioA_mapLoop]
    decide
  have hwR : waitForBudget cfgA.TOKEN_BUDGET_WINDOWS cfgA.TOKENS_PER_MINUTE
      cfgA.TOKEN_BUDGET_TIMEOUT (tcLen100 (id (sepJoin ["sum2"])) + cfgA.REDUCE_OUT_MAX) 0 0
      { usedTokens := 250, windowStart := 0 }
      = WaitResult.admitted 0 { usedTokens := 250, windowStart := 0 } := by
    rw [waitForBudget_eq_admitted]
    · decide
    · decide
  have hjob := reduceJobE_ok cfgA id tcLen100 invRA (sepJoin ["sum2"])
    { time := 0, tracker := { usedTokens := 250, windowStart := 0 }, jobIdx := 0 }
    0 { usedTokens := 250, windowStart := 0 } ("final-sum", some 100)
    (by decide) (by decide) hwR rfl
  have hred : hierarchicalReduceE (reduceJobE cfgA id tcLen100 invRA)
      cfgA.HIERARCHY_GROUP_SIZE ((["sum2"] : List String).length) ["sum2"]
      { time := 0, tracker := { usedTokens := 250, windowStart := 0 }, jobIdx := 0 }
      = ({ time := 0, tracker := { usedTokens := 350, windowStart := 0 }, jobIdx := 1 },
         Except.ok "final-sum") := by
    rw [show ((["sum2"] : List String).length) = 0 + 1 from rfl]
    rw [hierarchicalReduceE_base _ _ _ _ _ (by decide)]
    rw [hjob]
    decide
  refine ⟨by rw [hrun], by rw [hrun], by rw [hrun], ?_⟩
  unfold summarizeWithQueue
  rw [if_neg (by decide : ¬ (docsA = []))]
  simp only [hrun]
  simp only [hred]
  decide

theorem C3_impossible_estimate_skipped_witness :
    mapSegmentBody cfgA id tcLen100 invA
      { pageContent := "x-long-content", chunk := 0, tokenCount := 14 } (initialMapState 0) =
      (initialMapState 0, some ⟨none, none,
        mapEstimateMsg (tcLen100 (id "x-long-content") + cfgA.MAP_OUT_MAX)
          cfgA.TOKENS_PER_MINUTE⟩) ∧
    mapLoop cfgA id tcLen100 invA
        ({ pageContent := "x-long-content", chunk := 0, tokenCount := 14 } :: docsA.tail)
        (initialMapState 0)
      = mapLoop cfgA id tcLen100 invA docsA.tail (initialMapState 0) :=
  C3_impossible_estimate_skipped cfgA id tcLen100 invA
    { pageContent := "x-long-content", chunk := 0, tokenCount := 14 } docsA.tail
    (initialMapState 0) (by decide) (by decide) (by decide)

/-! ## Concrete scenario W: a genuine budget timeout -/

/-- Configuration of scenario W: TPM 1000, a 1-second budget timeout,
and a window so long it never resets during the wait. -/
def cfgW : SummarizeCfg :=
  { TOKENS_PER_MINUTE := 1000, TOKEN_BUDGET_TIMEOUT := 1000, REQUESTS_PER_MINUTE := 20,
    QUEUE_INTERVAL := 60000, QUEUE_CONCURRENCY := 3, TOKEN_BUDGET_WINDOWS := 1000000000,
    MAP_OUT_MAX := 100, REDUCE_OUT_MAX := 100, HIERARCHY_GROUP_SIZE := 2 }

/-- Scenario W model oracle: chunk 0 succeeds at once and reports a
usage of 950 tokens, nearly exhausting the window. -/
def invW (chunk _attempt : Nat) : InvokeOutcome :=
  if chunk = 0 then InvokeOutcome.ok "p-sum" (some 950)
  else InvokeOutcome.fail ⟨some 500, none, "never reached"⟩

/-- The first scenario-W document (estimate 400, fits). -/
def docW0 : Doc := { pageContent := "ppp", chunk := 0, tokenCount := 3 }

/-- The second scenario-W document (estimate 300; 950 + 300 > 1000, and
the window never frees up, so its budget wait times out). -/
def docW1 : Doc := { pageContent := "qq", chunk := 1, tokenCount := 2 }

/-- A third scenario-W document, never reached. -/
def docW2 : Doc := { pageContent := "zz", chunk := 2, tokenCount := 2 }

/-- The state after processing `docW0`. -/
def stW : MapState :=
  { time := 0, tracker := { usedTokens := 950, windowStart := 0 },
    parts := ["p-sum"], calls := [(0, 1)] }

theorem scenarioW_pre :
    mapLoop cfgW id tcLen100 invW [docW0] (initialMapState 0) = (stW, none) := by
  have hw : waitForBudget cfgW.TOKEN_BUDGET_WINDOWS cfgW.TOKENS_PER_MINUTE
      cfgW.TOKEN_BUDGET_TIMEOUT (tcLen100 (id "ppp") + cfgW.MAP_OUT_MAX) 0 0
      { usedTokens := 0, windowStart := 0 }
      = WaitResult.admitted 0 { usedTokens := 0, windowStart := 0 } := by
    rw [waitForBudget_eq_admitted]
    · decide
    · decide
  have hseg := mapSegmentBody_admitted_ok_push cfgW id tcLen100 invW docW0
    (initialMapState 0) 0 { usedTokens := 0, windowStart := 0 } ("p-sum", some 950)
    (by decide) (by decide) hw rfl (by decide)
  rw [mapLoop_cons_continue cfgW id tcLen100 invW _ _ _ _ hseg, mapLoop_nil]
  decide

theorem scenarioW_wait :
    waitForBudget cfgW.TOKEN_BUDGET_WINDOWS cfgW.TOKENS_PER_MINUTE cfgW.TOKEN_BUDGET_TIMEOUT
      (tcLen100 (id "qq") + cfgW.MAP_OUT_MAX) stW.time stW.time stW.tracker
      = WaitResult.timeout 300 50 3000 { usedTokens := 950, windowStart := 0 } := by
  rw [waitForBudget_eq_step]
  · rw [waitForBudget_eq_timeout]
    · decide
    · decide
    · decide
  · decide
  · decide

theorem C8_budget_timeout_aborts_witness :
    strContains (budgetTimeoutMsg cfgW.TOKEN_BUDGET_TIMEOUT 300 50) budgetTimeoutPhrase
      = true ∧
    mapLoop cfgW id tcLen100 invW (docW1 :: [docW2]) stW =
      ({ stW with time := 3000, tracker := { usedTokens := 950, windowStart := 0 } },
       some ⟨none, none, budgetTimeoutMsg cfgW.TOKEN_BUDGET_TIMEOUT 300 50⟩) ∧
    mapPhaseRun cfgW id tcLen100 invW
        ([docW0] ++ docW1 :: [docW2]) 0 =
      ({ stW with time := 3000, tracker := { usedTokens := 950, windowStart := 0 } },
       some ⟨none, none,
        mapPhaseFailedMsg (budgetTimeoutMsg cfgW.TOKEN_BUDGET_TIMEOUT 300 50)⟩) :=
  C8_budget_timeout_aborts cfgW id tcLen100 invW docW1
    [docW2] [docW0] stW 300 50 3000
    { usedTokens := 950, windowStart := 0 } 0
    (by decide) (by decide) scenarioW_wait scenarioW_pre

/-! ## Concrete scenario 9: a permanently failing segment beside a
succeeding one, with a reduce phase that cannot fit -/

/-- A concrete token counter: one token per character. -/
def tc9 (s : String) : Int := (s.length : Int)

/-- Configuration of scenario 9: the map phase fits easily, the reduce
output cap alone exceeds the TPM. -/
def cfg9 : SummarizeCfg :=
  { TOKENS_PER_MINUTE := 1000000, TOKEN_BUDGET_TIMEOUT := 10000, REQUESTS_PER_MINUTE := 20,
    QUEUE_INTERVAL := 60000, QUEUE_CONCURRENCY := 3, TOKEN_BUDGET_WINDOWS := 1000000000,
    MAP_OUT_MAX := 100, REDUCE_OUT_MAX := 2000000, HIERARCHY_GROUP_SIZE := 2 }

/-- Scenario 9 documents. -/
def docs9 : List Doc :=
  [{ pageContent := "aaa", chunk := 0, tokenCount := 3 },
   { pageContent := "bbbb", chunk := 1, tokenCount := 4 }]

/-- Scenario 9 model oracle: chunk 0 always fails with HTTP 500 (so its
retries are exhausted), chunk 1 succeeds at once. -/
def inv9 (chunk _attempt : Nat) : InvokeOutcome :=
  if chunk = 1 then InvokeOutcome.ok "sum-two" (some 200)
  else InvokeOutcome.fail ⟨some 500, none, "Internal Server Error"⟩

/-- Scenario 9 reduce oracle (never reached: the reduce estimate check
fails first). -/
def invR9 (_jobIdx _attempt : Nat) : InvokeOutcome := InvokeOutcome.ok "unused" none

/-- The state after the scenario 9 map phase: chunk 0 skipped after 7
attempts (2000 + 4000 + 5 * 8000 = 46000 ms of backoff), chunk 1
contributed its summary and its 200 reported tokens. -/
def st9b : MapState :=
  { time := 46000, tracker := { usedTokens := 200, windowStart := 0 },
    parts := ["sum-two"],
    calls := [(0, 1), (0, 2), (0, 3), (0, 4), (0, 5), (0, 6), (0, 7), (1, 1)] }

theorem scenario9_mapLoop :
    mapLoop cfg9 id tc9 inv9 docs9 (initialMapState 0) = (st9b, none) := by
  have hw0 : waitForBudget cfg9.TOKEN_BUDGET_WINDOWS cfg9.TOKENS_PER_MINUTE
      cfg9.TOKEN_BUDGET_TIMEOUT (tc9 (id "aaa") + cfg9.MAP_OUT_MAX) 0 0
      { usedTokens := 0, windowStart := 0 }
      = WaitResult.admitted 0 { usedTokens := 0, windowStart := 0 } := by
    rw [waitForBudget_eq_admitted]
    · decide
    · decide
  have hseg0 : mapSegmentBody cfg9 id tc9 inv9
      { pageContent := "aaa", chunk := 0, tokenCount := 3 } (initialMapState 0)
      = ({ time := 46000, tracker := { usedTokens := 0, windowStart := 0 }, parts := [],
           calls := [(0, 1), (0, 2), (0, 3), (0, 4), (0, 5), (0, 6), (0, 7)] },
         some ⟨some 500, none, "Internal Server Error"⟩) := by
    rw [mapSegmentBody_admitted_err cfg9 id tc9 inv9
      { pageContent := "aaa", chunk := 0, tokenCount := 3 } (initialMapState 0)
      0 { usedTokens := 0, windowStart := 0 } ⟨some 500, none, "Internal Server Error"⟩
      (by decide) (by decide) hw0 (by decide)]
    decide
  have hw1 : waitForBudget cfg9.TOKEN_BUDGET_WINDOWS cfg9.TOKENS_PER_MINUTE
      cfg9.TOKEN_BUDGET_TIMEOUT (tc9 (id "bbbb") + cfg9.MAP_OUT_MAX) 46000 46000
      { usedTokens := 0, windowStart := 0 }
      = WaitResult.admitted 46000 { usedTokens := 0, windowStart := 0 } := by
    rw [waitForBudget_eq_admitted]
    · decide
    · decide
  have hseg1 : mapSegmentBody cfg9 id tc9 inv9
      { pageContent := "bbbb", chunk := 1, tokenCount := 4 }
      { time := 46000, tracker := { usedTokens := 0, windowStart := 0 }, parts := [],
        calls := [(0, 1), (0, 2), (0, 3), (0, 4), (0, 5), (0, 6), (0, 7)] }
      = (st9b, none) := by
    rw [mapSegmentBody_admitted_ok_push cfg9 id tc9 inv9
      { pageContent := "bbbb", chunk := 1, tokenCount := 4 }
      { time := 46000, tracker := { usedTokens := 0, windowStart := 0 }, parts := [],
        calls := [(0, 1), (0, 2), (0, 3), (0, 4), (0, 5), (0, 6), (0, 7)] }
      46000 { usedTokens := 0, windowStart := 0 } ("sum-two", some 200)
      (by decide) (by decide) hw1 (by decide) (by decide)]
    decide
  rw [show docs9 = { pageContent := "aaa", chunk := 0, tokenCount := 3 } ::
    [{ pageContent := "bbbb", chunk := 1, tokenCount := 4 }] from rfl]
  rw [mapLoop_cons_caught cfg9 id tc9 inv9 _ _ _ _ _ hseg0 (by decide)]
  rw [mapLoop_cons_continue cfg9 id tc9 inv9 _ _ _ _ hseg1]
  rw [mapLoop_nil]

/-- C9 counterexample: one of the two segments succeeds (the partial
list has length 1, so not zero segments succeeded), the run proceeds to
the reduce phase — and the run nevertheless fails, because the reduce
estimate exceeds the TPM.  This refutes "the run fails if and only if
zero segments succeed" for the run as a whole. -/
theorem C9_counterexample :
    (docs9.filterMap (segSuccessOutput cfg9 id tc9 inv9)).length = 1 ∧
    isOkE (summarizeWithQueue cfg9 id id tc9 inv9 invR9 docs9 0) = false := by
  constructor
  · decide
  · have hrun : mapPhaseRun cfg9 id tc9 inv9 docs9 0 = (st9b, none) := by
      unfold mapPhaseRun
      simp only [scenario9_mapLoop]
      decide
    unfold summarizeWithQueue
    rw [if_neg (by decide : ¬ (docs9 = []))]
    simp only [hrun, st9b]
    rw [show (["sum-two"] : List String).length = 0 + 1 from rfl]
    rw [hierarchicalReduceE_base _ _ _ _ _ (by decide)]
    decide

theorem C9_map_failures_skipped_witness :
    (mapLoop cfg9 id tc9 inv9 docs9 (initialMapState 0)).1.parts =
      docs9.filterMap (segSuccessOutput cfg9 id tc9 inv9) ∧
    ((mapPhaseRun cfg9 id tc9 inv9 docs9 0).2.isSome ↔
      docs9.filterMap (segSuccessOutput cfg9 id tc9 inv9) = []) ∧
    (docs9 ≠ [] →
      docs9.filterMap (segSuccessOutput cfg9 id tc9 inv9) ≠ [] →
      summarizeWithQueue cfg9 id id tc9 inv9 invR9 docs9 0 =
        (match hierarchicalReduceE (reduceJobE cfg9 id tc9 invR9) cfg9.HIERARCHY_GROUP_SIZE
            (mapLoop cfg9 id tc9 inv9 docs9 (initialMapState 0)).1.parts.length
            (mapLoop cfg9 id tc9 inv9 docs9 (initialMapState 0)).1.parts
            { time := (mapLoop cfg9 id tc9 inv9 docs9 (initialMapState 0)).1.time,
              tracker := (mapLoop cfg9 id tc9 inv9 docs9 (initialMapState 0)).1.tracker,
              jobIdx := 0 } with
         | (_, Except.error e) =>
            Except.error { status := none, retryAfter := none,
                           message := reducePhaseFailedMsg e.message }
         | (_, Except.ok final) =>
            if strTrim final = "" then
              Except.error { status := none, retryAfter := none,
                             message := reducePhaseFailedMsg emptyFinalMsg }
            else Except.ok (strTrim final))) :=
  C9_map_failures_skipped cfg9 id id tc9 inv9 invR9 docs9 0 (by rw [scenario9_mapLoop])

theorem C10_map_sequential_order_witness :
    (mapLoop cfg9 id tc9 inv9 docs9 (initialMapState 0)).1.parts =
      docs9.filterMap (segSuccessOutput cfg9 id tc9 inv9) ∧
    (mapLoop cfg9 id tc9 inv9 docs9 (initialMapState 0)).1.calls =
      (docs9.map (fun d => (List.range (segCallCount cfg9 id tc9 inv9 d)).map
        (fun j => (d.chunk, j + 1)))).flatten ∧
    mapPhaseRun { cfg9 with QUEUE_CONCURRENCY := 7 } id tc9 inv9 docs9 0
      = mapPhaseRun cfg9 id tc9 inv9 docs9 0 ∧
    mapLoop { cfg9 with QUEUE_CONCURRENCY := 7 } id tc9 inv9 docs9 (initialMapState 0)
      = mapLoop cfg9 id tc9 inv9 docs9 (initialMapState 0) :=
  C10_map_sequential_order cfg9 id tc9 inv9 docs9 0 7 (by rw [scenario9_mapLoop])
